import Mathlib

/-!
# Sprite kinematics, edge collision and pen state of `spx` (`sprite.go`)

A shallow embedding of the sprite core of `src/sprite.go`.

Number model.  Go's `float64` fields (`x`, `y`, `direction`, `penHue`, ...) are
embedded as elements of an arbitrary linearly ordered field `α` with a floor
function.  Instantiating `α := ℚ` makes every definition executable.  Two
computations are embedded in binary64, because what they store depends on the
rounding or on the range of the machine type: the additions `v += p.penHue`,
`v += 200` (and their shade twins) of the pen setters, and the duration
`int64(secs * 1e9)` of `Glide`.  They go through `round64` (round to nearest,
ties to even, 53-bit significand) and `int64OfFloat` (truncation, with the
result for a value that does not fit in 64 bits left to a parameter).  All
other arithmetic is exact.  NaN and the infinities are not part of the
embedding.  Go's `int` is embedded as `ℤ`; bitwise `&` and `|` are
the two's-complement `Int.land` and `Int.lor`.  The functions of Go's `math`
package (`Sincos`, `Atan2`, `Pi`) are parameters; the theorems about `Step` and
`TurnTo` geometry take `α := ℝ` and the real sine, cosine and angle for them.

Effects.  Calls that leave the sprite (pen canvas, scheduler, stage shapes) are
recorded in an event trace carried next to the sprite, in program order.  The
trace also records every position assignment of `doMoveTo`, so that the
commits of `Glide` can be counted.  The sprite's mutex is not modelled: every
operation is run to completion on its own.
-/

namespace Spx

/-! ## Data model -/

/-- The `color.RGBA` of Go's `image/color`: four 8-bit channels, kept as
naturals. -/
structure RGBA where
  R : ℕ
  G : ℕ
  B : ℕ
  A : ℕ
deriving DecidableEq, Repr

/-- The `sayOrThinker` overlay a sprite may own (`msg`, `style`). -/
structure sayOrThinker where
  msg : String
  style : ℤ
deriving DecidableEq, Repr

/-- The fields of `type Sprite struct`.  The embedded `baseObj` and `*Game`
are external collaborators and are reached through `Backend` and the trace. -/
structure Sprite (α : Type) where
  name : String
  x : α
  y : α
  scale : α
  direction : α
  rotationStyle : ℤ
  say : Option sayOrThinker
  penColor : RGBA
  penShade : α
  penHue : α
  penWidth : α
  visible : Bool
  isDraggable : Bool
  isCloned : Bool
  isPenDown : Bool

/-- Calls that leave the sprite, in program order, together with the position
assignments made by `doMoveTo`. -/
inductive Event (α : Type) where
  /-- `p.Game.movePen(p, x, y)`: `p` is the sprite as it is at the call. -/
  | movePen (p : Sprite α) (x y : α)
  /-- The assignment `p.x, p.y = x, y`. -/
  | setPos (x y : α)
  /-- `p.sleep(ns)`. -/
  | sleep (ns : ℤ)
  /-- `p.addShape(say)`. -/
  | addShape (s : sayOrThinker)
  /-- `p.removeShape(say)`. -/
  | removeShape (s : sayOrThinker)
  /-- `p.activateShape(say)`. -/
  | activateShape (s : sayOrThinker)
  /-- `p.Wait(secs)`. -/
  | wait (secs : α)
  /-- A call into the embedded `baseObj` or `*Game` whose body is not in
  `sprite.go`, by the name of the method called. -/
  | game (method : String)

/-- A sprite together with the trace of events issued so far. -/
structure St (α : Type) where
  sp : Sprite α
  trace : List (Event α)

/-! ## Constants -/

/-- `Mouse = specialObj(1)`. -/
def Mouse : ℤ := 1
/-- `Edge = specialObj(2)`. -/
def Edge : ℤ := 2
/-- `Random = specialObj(3)`. -/
def Random : ℤ := 3

/-- `touchingScreenLeft = 1`. -/
def touchingScreenLeft : ℤ := 1
/-- `touchingScreenTop = 2`. -/
def touchingScreenTop : ℤ := 2
/-- `touchingScreenRight = 4`. -/
def touchingScreenRight : ℤ := 4
/-- `touchingScreenBottom = 8`. -/
def touchingScreenBottom : ℤ := 8
/-- `touchingAllEdges = 15`. -/
def touchingAllEdges : ℤ := 15

/-- `glideTick = 1e8` (nanoseconds). -/
def glideTick : ℤ := 100000000

/-! ## Edge mask from a heading -/

section Direction

variable {α : Type} [LinearOrderedField α]

/-- `func checkTouchingDirection(dir float64) int`. -/
def checkTouchingDirection (dir : α) : ℤ :=
  if dir > 0 then
    if dir < 90 then
      Int.lor touchingScreenRight touchingScreenTop
    else if dir > 90 then
      if dir = 180 then
        touchingScreenBottom
      else
        Int.lor touchingScreenRight touchingScreenBottom
    else
      touchingScreenRight
  else if dir < 0 then
    if dir > -90 then
      Int.lor touchingScreenLeft touchingScreenTop
    else if dir < -90 then
      Int.lor touchingScreenLeft touchingScreenBottom
    else
      touchingScreenLeft
  else
    touchingScreenTop

end Direction

/-! ## Angle utilities -/

section Angle

variable {α : Type} [LinearOrderedField α] [FloorRing α]

/-- Modelled from the spec: `normalizeDirection` is called by `sprite.go` but
defined in a file that is not part of the sources.  Section 4.1 of the spec:
"maps any real input into `(-180, 180]`.  Algorithm: reduce modulo 360 into
`[-180, 180)` first, then apply the half-open/half-closed boundary adjustment
so that exactly `180` is representable and `-180` is not (i.e., `-180`
normalizes to `180`)". -/
def normalizeDirection (dir : α) : α :=
  let r := dir - 360 * (⌊(dir + 180) / 360⌋ : ℤ)
  if r = -180 then 180 else r

/-- The integer part of a number: the fraction is discarded (truncation toward
zero). -/
def truncToInt (q : α) : ℤ :=
  if 0 ≤ q then ⌊q⌋ else ⌈q⌉

/-- Go's `math.Mod(x, y)`: the floating-point remainder of `x / y`, whose sign
agrees with that of `x` and whose magnitude is less than that of `y`.  The
remainder of two `float64` values is a `float64` value, so nothing is
rounded. -/
def mathMod (x y : α) : α :=
  x - y * (truncToInt (x / y) : ℤ)

/-- The integer nearest to `x`, the even one of the two when `x` lies half way
between them. -/
def roundHalfEven (x : α) : ℤ :=
  if x - (⌊x⌋ : ℤ) < 1 / 2 then ⌊x⌋
  else if 1 / 2 < x - (⌊x⌋ : ℤ) then ⌊x⌋ + 1
  else if ⌊x⌋ % 2 = 0 then ⌊x⌋
  else ⌊x⌋ + 1

/-- The `float64` (IEEE 754 binary64) value that an arithmetic operation of Go
stores for the exact result `q`: the nearest multiple of the quantum `2^k`,
ties to even, where `k` leaves 53 bits to the significand and is never below
`-1074` (subnormal numbers).  Overflow to an infinity is not modelled. -/
def round64 (q : α) : α :=
  if q = 0 then 0
  else
    (roundHalfEven (q / (2 : α) ^ (max (Int.log 2 |q| - 52) (-1074) : ℤ)) : α) *
      (2 : α) ^ (max (Int.log 2 |q| - 52) (-1074) : ℤ)

/-- Go's `a + b` on `float64` values. -/
def float64Add (a b : α) : α :=
  round64 (a + b)

/-- Go's `a * b` on `float64` values. -/
def float64Mul (a b : α) : α :=
  round64 (a * b)

/-- Go's conversion `int64(x)` of a `float64`: the fraction is discarded when
the integer part fits in 64 bits.  Otherwise the language leaves the result to
the implementation; it is the parameter `outOfRange`. -/
def int64OfFloat (outOfRange : α → ℤ) (x : α) : ℤ :=
  if -9223372036854775808 ≤ truncToInt x ∧ truncToInt x ≤ 9223372036854775807 then
    truncToInt x
  else
    outOfRange x

end Angle

/-! ## Collaborators -/

/-- The raster backend as seen by the touching queries.  `G` stands for the
pair `(spr, pt)` returned by `getGdiSprite`; `none` is `spr == nil`. -/
structure Backend (α : Type) (G : Type) where
  /-- `p.getGdiSprite()`. -/
  getGdiSprite : Sprite α → Option G
  /-- `gdi.TouchingRect(spr, pt, x1, y1, x2, y2)`. -/
  TouchingRect : G → α → α → α → α → Bool
  /-- `gdi.Touching(sp1, pt1, sp2, pt2)`. -/
  Touching : Option G → Option G → Bool
  /-- `p.size()`. -/
  size : Sprite α → α × α
  /-- `p.touchingSpriteBy(p, name)`. -/
  touchingSpriteBy : Sprite α → String → Bool
  /-- `p.getMousePos()`. -/
  getMousePos : ℤ × ℤ
  /-- `p.touchingPoint(p, x, y)`. -/
  touchingPoint : Sprite α → α → α → Bool

/-- The functions of `internal/gdi/clrutil` used by the pen. -/
structure Clrutil (α : Type) where
  /-- `clrutil.HSV2RGB(h, s, v)`. -/
  HSV2RGB : α → α → α → ℕ × ℕ × ℕ
  /-- `clrutil.MixRGB(r1, g1, b1, r2, g2, b2, frac)`. -/
  MixRGB : ℕ → ℕ → ℕ → ℕ → ℕ → ℕ → α → ℕ × ℕ × ℕ

/-- The angle functions used by `Step`: the helper `toRadian` and Go's
`math.Sincos`. -/
structure Trig (α : Type) where
  /-- `toRadian(degrees)`. -/
  toRadian : α → α
  /-- `math.Sincos(x)`: `(sin x, cos x)`. -/
  Sincos : α → α × α

/-- The dynamic type of the `obj interface{}` argument of `Touching`. -/
inductive Object (α : Type) where
  /-- A `string`: a sprite name. -/
  | str (v : String)
  /-- A `*Sprite`. -/
  | sprite (v : Sprite α)
  /-- A `specialObj` with the given integer value. -/
  | special (v : ℤ)
  /-- A value of any other dynamic type. -/
  | other

/-! ## Touching and bouncing -/

section Touch

variable {α : Type} [LinearOrderedField α] {G : Type}

/-- `func (p *Sprite) checkTouchingScreen(where int) (touching int)`. -/
def checkTouchingScreen (b : Backend α G) (p : Sprite α) (where_ : ℤ) : ℤ :=
  match b.getGdiSprite p with
  | none => 0
  | some spr =>
    if Int.land where_ touchingScreenLeft ≠ 0 ∧
        b.TouchingRect spr (-100000000) (-100000000) 0 100000000 = true then
      touchingScreenLeft
    else if Int.land where_ touchingScreenTop ≠ 0 ∧
        b.TouchingRect spr (-100000000) (-100000000) 100000000 0 = true then
      touchingScreenTop
    else
      let w := (b.size p).1
      let h := (b.size p).2
      if Int.land where_ touchingScreenRight ≠ 0 ∧
          b.TouchingRect spr w (-100000000) 100000000 100000000 = true then
        touchingScreenRight
      else if Int.land where_ touchingScreenBottom ≠ 0 ∧
          b.TouchingRect spr (-100000000) h 100000000 100000000 = true then
        touchingScreenBottom
      else
        0

/-- `func touchingSprite(dst, src *Sprite) bool`. -/
def touchingSprite (b : Backend α G) (dst src : Sprite α) : Bool :=
  b.Touching (b.getGdiSprite dst) (b.getGdiSprite src)

/-- `func (p *Sprite) Touching(obj interface{}) bool`; a panic is the error
result. -/
def Touching (b : Backend α G) (p : Sprite α) (obj : Object α) : Except String Bool :=
  match obj with
  | .str v => .ok (b.touchingSpriteBy p v)
  | .sprite v =>
    if touchingSprite b p v = true then .ok true else .ok false
  | .special v =>
    if v = Edge then
      if checkTouchingScreen b p touchingAllEdges ≠ 0 then .ok true else .ok false
    else if v = Mouse then
      .ok (b.touchingPoint p (b.getMousePos.1 : α) (b.getMousePos.2 : α))
    else
      .ok false
  | .other => .error "Touching: unexpected input"

/-- `func (p *Sprite) Heading() float64`. -/
def Heading (p : Sprite α) : α := p.direction

end Touch

section Bounce

variable {α : Type} [LinearOrderedField α] [FloorRing α] {G : Type}

/-- `func (p *Sprite) BounceOffEdge()`. -/
def BounceOffEdge (b : Backend α G) (p : Sprite α) : Sprite α :=
  let dir := Heading p
  let where_ := checkTouchingDirection dir
  let touching := checkTouchingScreen b p where_
  if touching = 0 then
    p
  else
    let dir :=
      if Int.land touching (Int.lor touchingScreenLeft touchingScreenRight) ≠ 0 then
        -dir
      else
        180 - dir
    { p with direction := normalizeDirection dir }

end Bounce

/-! ## Pen hue, shade and colour -/

section Pen

variable {α : Type} [LinearOrderedField α] [FloorRing α]

/-- `func (p *Sprite) doUpdatePenColor()`. -/
def doUpdatePenColor (c : Clrutil α) (p : Sprite α) : Sprite α :=
  let base := c.HSV2RGB ((p.penHue * 180) / 100) 1 1
  let shade := p.penShade
  let shade := if shade > 100 then 200 - shade else shade
  let rgb :=
    if shade < 50 then
      c.MixRGB 0 0 0 base.1 base.2.1 base.2.2 ((10 + shade) / 60)
    else
      c.MixRGB base.1 base.2.1 base.2.2 255 255 255 ((shade - 50) / 60)
  { p with penColor := { R := rgb.1, G := rgb.2.1, B := rgb.2.2, A := p.penColor.A } }

/-- `func (p *Sprite) setPenHue(v float64, change bool)`.  The two additions
`v += p.penHue` and `v += 200` are `float64` additions. -/
def setPenHue (c : Clrutil α) (v : α) (change : Bool) (p : Sprite α) : Sprite α :=
  let v := if change then float64Add v p.penHue else v
  let v := mathMod v 200
  let v := if v < 0 then float64Add v 200 else v
  doUpdatePenColor c { p with penHue := v }

/-- `func (p *Sprite) setPenShade(v float64, change bool)`.  The two additions
`v += p.penShade` and `v += 200` are `float64` additions. -/
def setPenShade (c : Clrutil α) (v : α) (change : Bool) (p : Sprite α) : Sprite α :=
  let v := if change then float64Add v p.penShade else v
  let v := mathMod v 200
  let v := if v < 0 then float64Add v 200 else v
  doUpdatePenColor c { p with penShade := v }

/-- `func (p *Sprite) SetPenShade(shade float64)`. -/
def SetPenShade (c : Clrutil α) (shade : α) (p : Sprite α) : Sprite α :=
  setPenShade c shade false p

/-- `func (p *Sprite) ChangePenShade(delta float64)`. -/
def ChangePenShade (c : Clrutil α) (delta : α) (p : Sprite α) : Sprite α :=
  setPenShade c delta true p

/-- `func (p *Sprite) SetPenHue(hue float64)`. -/
def SetPenHue (c : Clrutil α) (hue : α) (p : Sprite α) : Sprite α :=
  setPenHue c hue false p

/-- `func (p *Sprite) ChangePenHue(delta float64)`. -/
def ChangePenHue (c : Clrutil α) (delta : α) (p : Sprite α) : Sprite α :=
  setPenHue c delta true p

/-- Modelled from the spec: `clrutil.MixRGB` lives in `internal/gdi/clrutil`,
which is not part of the sources.  Section 4.4 of the spec: "`MixRGB(c1, c2,
ratio)`: per-channel linear interpolation, ratio `0` = `c1`, ratio `1` = `c2`,
no clamping of ratio".  The spec does not say how a fractional channel becomes
an 8-bit value; the floor is taken here. -/
def specMixRGB (r1 g1 b1 r2 g2 b2 : ℕ) (ratio : α) : ℕ × ℕ × ℕ :=
  (⌊(r1 : α) + ((r2 : α) - r1) * ratio⌋₊,
   ⌊(g1 : α) + ((g2 : α) - g1) * ratio⌋₊,
   ⌊(b1 : α) + ((b2 : α) - b1) * ratio⌋₊)

/-- Modelled from the spec: `clrutil.HSV2RGB` lives in `internal/gdi/clrutil`,
which is not part of the sources.  Section 4.4 of the spec: "HSV→RGB using
standard formulas", with the hue in degrees as in `HSV2RGB(penHue×180/100,
saturation=1, value=1)`: the sector is `⌊h/60⌋ mod 6`, `f` is the fraction of
`h/60`, and the channels are scaled to `0..255`. -/
def specHSV2RGB (h s v : α) : ℕ × ℕ × ℕ :=
  let i : ℤ := ⌊h / 60⌋
  let f : α := h / 60 - (i : α)
  let p := v * (1 - s)
  let q := v * (1 - f * s)
  let t := v * (1 - (1 - f) * s)
  let rgb : α × α × α :=
    if i % 6 = 0 then (v, t, p)
    else if i % 6 = 1 then (q, v, p)
    else if i % 6 = 2 then (p, v, t)
    else if i % 6 = 3 then (p, q, v)
    else if i % 6 = 4 then (t, p, v)
    else (v, p, q)
  (⌊255 * rgb.1⌋₊, ⌊255 * rgb.2.1⌋₊, ⌊255 * rgb.2.2⌋₊)

/-- The colour functions as the spec describes them. -/
def specClrutil : Clrutil α :=
  { HSV2RGB := specHSV2RGB, MixRGB := specMixRGB }

/-- The pen colour channels in the words of claim C7: the base colour
`HSV2RGB(penHue*180/100, 1, 1)` is blended toward black with ratio
`(10+s)/60` when the folded shade `s` is below `50`, and toward white with
ratio `(s-50)/60` otherwise (`MixRGB(c1, c2, ratio)` blends from `c1` toward
`c2`). -/
def claimedPenRGB (c : Clrutil α) (penHue penShade : α) : ℕ × ℕ × ℕ :=
  let base := c.HSV2RGB ((penHue * 180) / 100) 1 1
  let s := if penShade ≤ 100 then penShade else 200 - penShade
  if s < 50 then
    c.MixRGB base.1 base.2.1 base.2.2 0 0 0 ((10 + s) / 60)
  else
    c.MixRGB base.1 base.2.1 base.2.2 255 255 255 ((s - 50) / 60)

end Pen

/-! ## Position mutators and Glide -/

section Motion

variable {α : Type} [LinearOrderedField α] [FloorRing α]

/-- `func (p *Sprite) doMoveTo(x, y float64)`. -/
def doMoveTo (x y : α) (s : St α) : St α :=
  let s1 : St α :=
    if s.sp.isPenDown = true then
      { s with trace := s.trace ++ [Event.movePen s.sp x y] }
    else
      s
  { sp := { s1.sp with x := x, y := y }, trace := s1.trace ++ [Event.setPos x y] }

/-- `func (p *Sprite) Step(step float64)`. -/
def Step (T : Trig α) (step : α) (s : St α) : St α :=
  let sc := T.Sincos (T.toRadian s.sp.direction)
  doMoveTo (s.sp.x + step * sc.1) (s.sp.y + step * sc.2) s

/-- `func (p *Sprite) SetXY(x, y float64)`. -/
def SetXY (x y : α) (s : St α) : St α :=
  doMoveTo x y s

/-- `func (p *Sprite) SetXpos(x float64)`. -/
def SetXpos (x : α) (s : St α) : St α :=
  doMoveTo x s.sp.y s

/-- `func (p *Sprite) ChangeXpos(dx float64)`. -/
def ChangeXpos (dx : α) (s : St α) : St α :=
  doMoveTo (s.sp.x + dx) s.sp.y s

/-- `func (p *Sprite) SetYpos(y float64)`. -/
def SetYpos (y : α) (s : St α) : St α :=
  doMoveTo s.sp.x y s

/-- `func (p *Sprite) ChangeYpos(dy float64)`. -/
def ChangeYpos (dy : α) (s : St α) : St α :=
  doMoveTo s.sp.x (s.sp.y + dy) s

/-- `p.sleep(ns)`: the scheduler is outside the sprite; the call is recorded. -/
def sleep (ns : ℤ) (s : St α) : St α :=
  { s with trace := s.trace ++ [Event.sleep ns] }

/-- The mutable locals of `Glide` while its loop runs. -/
structure GlideVars (α : Type) where
  inDur : ℤ
  x0 : α
  y0 : α
  st : St α

/-- The loop `for i := 1; i < n; i++ { ... }` of `Glide`, entered with the
current value of `i`. -/
def glideLoop (dx dy : α) (n : ℤ) (i : ℤ) (v : GlideVars α) : GlideVars α :=
  if i < n then
    let st := sleep glideTick v.st
    let inDur := v.inDur - glideTick
    let x0 := v.x0 + dx
    let y0 := v.y0 + dy
    let st := SetXY x0 y0 st
    glideLoop dx dy n (i + 1) { inDur := inDur, x0 := x0, y0 := y0, st := st }
  else
    v
termination_by (n - i).toNat
decreasing_by omega

/-- `func (p *Sprite) Glide(x, y float64, secs float64)`.  The `if n > 0`
block leaves the remaining duration `inDur` and the sprite state to the two
statements that follow it.  `inDur` is `int64(secs * 1e9)`: the `float64`
product converted to `int64`, with `outOfRange` the result the implementation
gives when the product does not fit; `int` is taken to be 64 bits wide. -/
def Glide (outOfRange : α → ℤ) (x y secs : α) (s : St α) : St α :=
  let inDur : ℤ := int64OfFloat outOfRange (float64Mul secs 1000000000)
  let n : ℤ := Int.tdiv inDur glideTick
  let r : ℤ × St α :=
    if n > 0 then
      let x0 := s.sp.x
      let y0 := s.sp.y
      let dx := (x - x0) / (n : α)
      let dy := (y - y0) / (n : α)
      let v := glideLoop dx dy n 1 { inDur := inDur, x0 := x0, y0 := y0, st := s }
      (v.inDur, v.st)
    else
      (inDur, s)
  SetXY x y (sleep r.1 r.2)

end Motion

/-! ## Visibility, size and speech overlay -/

section Overlay

variable {α : Type} [LinearOrderedField α]

/-- `func (p *Sprite) Hide()`. -/
def Hide (p : Sprite α) : Sprite α :=
  { p with visible := false }

/-- `func (p *Sprite) Show()`. -/
def Show (p : Sprite α) : Sprite α :=
  { p with visible := true }

/-- `func (p *Sprite) SetSize(size float64)`. -/
def SetSize (size : α) (p : Sprite α) : Sprite α :=
  { p with scale := size }

/-- `func (p *Sprite) ChangeSize(delta float64)`. -/
def ChangeSize (delta : α) (p : Sprite α) : Sprite α :=
  { p with scale := p.scale + delta }

/-- `func (p *Sprite) doStopSay()`. -/
def doStopSay (s : St α) : St α :=
  match s.sp.say with
  | some old => { sp := { s.sp with say := none }, trace := s.trace ++ [Event.removeShape old] }
  | none => s

/-- `func (p *Sprite) sayOrThink(msg string, style int)`.  The overlay is held
by value: the assignment `old.msg, old.style = msg, style` through the pointer
is the replacement of the stored record. -/
def sayOrThink (msg : String) (style : ℤ) (s : St α) : St α :=
  if msg = "" then
    doStopSay s
  else
    match s.sp.say with
    | none =>
      { sp := { s.sp with say := some { msg := msg, style := style } },
        trace := s.trace ++ [Event.addShape { msg := msg, style := style }] }
    | some old =>
      { sp := { s.sp with say := some { old with msg := msg, style := style } },
        trace := s.trace ++ [Event.activateShape { old with msg := msg, style := style }] }

/-- `p.Wait(secs)`: the scheduler is outside the sprite; the call is recorded. -/
def Wait (secs : α) (s : St α) : St α :=
  { s with trace := s.trace ++ [Event.wait secs] }

/-- `func (p *Sprite) waitStopSay(secs float64)`. -/
def waitStopSay (secs : α) (s : St α) : St α :=
  doStopSay (Wait secs s)

/-- `func (p *Sprite) Say(msg string, secs ...float64)`.  The constant
`styleSay` is declared outside `sprite.go` and is a parameter; `secs` is `none`
when the variadic argument is absent, else its first element. -/
def Say (styleSay : ℤ) (msg : String) (secs : Option α) (s : St α) : St α :=
  let s := sayOrThink msg styleSay s
  match secs with
  | some t => waitStopSay t s
  | none => s

/-- `func (p *Sprite) Think(msg string, secs ...float64)`, with the constant
`styleThink` as a parameter. -/
def Think (styleThink : ℤ) (msg : String) (secs : Option α) (s : St α) : St α :=
  let s := sayOrThink msg styleThink s
  match secs with
  | some t => waitStopSay t s
  | none => s

end Overlay

/-! ## Heading -/

/-- Go's `math.Atan2` and `math.Pi`, used by `TurnTo`. -/
structure MathAtan (α : Type) where
  /-- `math.Atan2(y, x)`. -/
  Atan2 : α → α → α
  /-- `math.Pi`. -/
  Pi : α

/-- The dynamic type of the `obj interface{}` argument of `TurnTo`. -/
inductive TurnTarget (α : Type) where
  /-- An `int`: degrees. -/
  | int (v : ℤ)
  /-- A `float64`: degrees. -/
  | float64 (v : α)
  /-- A value of any other dynamic type. -/
  | object (obj : Object α)

section HeadingOps

variable {α : Type} [LinearOrderedField α] [FloorRing α]

/-- `func (p *Sprite) setDirection(dir float64, change bool)`. -/
def setDirection (dir : α) (change : Bool) (p : Sprite α) : Sprite α :=
  let dir := if change then dir + p.direction else dir
  { p with direction := normalizeDirection dir }

/-- `func (p *Sprite) Turn(delta float64)`. -/
def Turn (delta : α) (p : Sprite α) : Sprite α :=
  setDirection delta true p

/-- `func (p *Sprite) TurnTo(obj interface{})`.  The method `objectPos` is
declared outside `sprite.go` and is a parameter. -/
def TurnTo (M : MathAtan α) (objectPos : Sprite α → Object α → α × α)
    (obj : TurnTarget α) (p : Sprite α) : Sprite α :=
  match obj with
  | .int v => setDirection (v : α) false p
  | .float64 v => setDirection v false p
  | .object o =>
    let xy := objectPos p o
    let dx := xy.1 - p.x
    let dy := xy.2 - p.y
    let angle := 90 - M.Atan2 dy dx * 180 / M.Pi
    setDirection angle false p

/-- Modelled from the spec: `toRadian` is called by `Step` but defined in a
file that is not part of the sources.  Section 4.1 of the spec:
"`toRadian(degrees) -> radians`: standard conversion, no side effects".  The
constant π is the argument `pi`. -/
def specToRadian (pi : α) (degrees : α) : α :=
  degrees * pi / 180

end HeadingOps

/-! ## Pen state -/

section PenState

variable {α : Type} [LinearOrderedField α]

/-- `func (p *Sprite) PenUp()`. -/
def PenUp (p : Sprite α) : Sprite α :=
  { p with isPenDown := false }

/-- `func (p *Sprite) PenDown()`. -/
def PenDown (p : Sprite α) : Sprite α :=
  { p with isPenDown := true }

/-- `func (p *Sprite) SetPenColor(color Color)`; `clrutil.RGB2HSV` is a
parameter. -/
def SetPenColor (RGB2HSV : ℕ → ℕ → ℕ → α × α × α) (color : RGBA) (p : Sprite α) : Sprite α :=
  let hsv := RGB2HSV color.R color.G color.B
  { p with penHue := (200 * hsv.1) / 360, penShade := 50 * hsv.2.2, penColor := color }

/-- `func (p *Sprite) setPenWidth(w float64, change bool)`. -/
def setPenWidth (w : α) (change : Bool) (p : Sprite α) : Sprite α :=
  let w := if change then w + p.penWidth else w
  { p with penWidth := w }

/-- `func (p *Sprite) SetPenSize(size float64)`. -/
def SetPenSize (size : α) (p : Sprite α) : Sprite α :=
  setPenWidth size true p

/-- `func (p *Sprite) ChangePenSize(delta float64)`. -/
def ChangePenSize (delta : α) (p : Sprite α) : Sprite α :=
  setPenWidth delta true p

/-- The ratio argument of the `MixRGB` call made by `doUpdatePenColor` for a
stored shade: `(10+shade)/60` or `(shade-50)/60` on the folded shade. -/
def penMixRatio (penShade : α) : α :=
  let shade := penShade
  let shade := if shade > 100 then 200 - shade else shade
  if shade < 50 then (10 + shade) / 60 else (shade - 50) / 60

end PenState

/-! ## The public operations -/

/-- The collaborators and constants that the public operations of a sprite
reach outside `sprite.go`. -/
structure Env (α G : Type) where
  /-- The raster backend. -/
  backend : Backend α G
  /-- `clrutil.HSV2RGB` and `clrutil.MixRGB`. -/
  clr : Clrutil α
  /-- `clrutil.RGB2HSV`. -/
  RGB2HSV : ℕ → ℕ → ℕ → α × α × α
  /-- `toRadian` and `math.Sincos`. -/
  trig : Trig α
  /-- `math.Atan2` and `math.Pi`. -/
  atan : MathAtan α
  /-- `p.objectPos(obj)`. -/
  objectPos : Sprite α → Object α → α × α
  /-- The result of `int64(x)` for a `float64` that does not fit in 64 bits. -/
  int64OutOfRange : α → ℤ
  /-- The constant `styleSay`. -/
  styleSay : ℤ
  /-- The constant `styleThink`. -/
  styleThink : ℤ

/-- The exported methods of `*Sprite` in `sprite.go`, with their arguments
(the `interface{}` arguments of `Clone` and `SetCostume` are left out). -/
inductive Op (α : Type) where
  | Clone
  | Destroy
  | Hide
  | Show
  | CostumeName
  | CostumeIndex
  | SetCostume
  | NextCostume
  | Say (msg : String) (secs : Option α)
  | Think (msg : String) (secs : Option α)
  | DistanceTo (obj : Object α)
  | Step (step : α)
  | Goto (obj : Object α)
  | Glide (x y secs : α)
  | SetXY (x y : α)
  | Xpos
  | SetXpos (x : α)
  | ChangeXpos (dx : α)
  | Ypos
  | SetYpos (y : α)
  | ChangeYpos (dy : α)
  | SetRotationStyle (style : ℤ)
  | Heading
  | Turn (delta : α)
  | TurnTo (obj : TurnTarget α)
  | Size
  | SetSize (size : α)
  | ChangeSize (delta : α)
  | TouchingColor (color : RGBA)
  | Touching (obj : Object α)
  | BounceOffEdge
  | GoBackLayers (n : ℤ)
  | GotoFront (n : ℤ)
  | Stamp
  | PenUp
  | PenDown
  | SetPenColor (color : RGBA)
  | ChangePenColor (delta : α)
  | SetPenShade (shade : α)
  | ChangePenShade (delta : α)
  | SetPenHue (hue : α)
  | ChangePenHue (delta : α)
  | SetPenSize (size : α)
  | ChangePenSize (delta : α)

/-- Modelled from the spec: the methods `costumeName`, `costumeIndex`,
`setCostume`, `nextCostume`, `goBackByLayers`, `getDrawInfo` and
`stampCostume` are called by `sprite.go` but defined in files that are not part
of the sources.  Section 3 of the spec: "Costume reference and draw-order
position (owned by the excluded Stage/costume collaborators; this core only
calls into them)".  The call is recorded and the fields of `Sprite` are left
as they are. -/
def gameCall {α : Type} (method : String) (s : St α) : St α :=
  { s with trace := s.trace ++ [Event.game method] }

section Run

variable {α : Type} [LinearOrderedField α] [FloorRing α] {G : Type}

/-- One public operation run on a sprite state.  A panic is the error result;
the value returned by a getter or query is dropped. -/
def run (E : Env α G) (op : Op α) (s : St α) : Except String (St α) :=
  match op with
  | .Clone => .error "todo"
  | .Destroy => .error "todo"
  | .Hide => .ok { s with sp := Hide s.sp }
  | .Show => .ok { s with sp := Show s.sp }
  | .CostumeName => .ok (gameCall "costumeName" s)
  | .CostumeIndex => .ok (gameCall "costumeIndex" s)
  | .SetCostume => .ok (gameCall "setCostume" s)
  | .NextCostume => .ok (gameCall "nextCostume" s)
  | .Say msg secs => .ok (Say E.styleSay msg secs s)
  | .Think msg secs => .ok (Think E.styleThink msg secs s)
  | .DistanceTo _ => .error "todo"
  | .Step step => .ok (Step E.trig step s)
  | .Goto _ => .error "todo"
  | .Glide x y secs => .ok (Glide E.int64OutOfRange x y secs s)
  | .SetXY x y => .ok (SetXY x y s)
  | .Xpos => .ok s
  | .SetXpos x => .ok (SetXpos x s)
  | .ChangeXpos dx => .ok (ChangeXpos dx s)
  | .Ypos => .ok s
  | .SetYpos y => .ok (SetYpos y s)
  | .ChangeYpos dy => .ok (ChangeYpos dy s)
  | .SetRotationStyle _ => .error "todo"
  | .Heading => .ok s
  | .Turn delta => .ok { s with sp := Turn delta s.sp }
  | .TurnTo obj => .ok { s with sp := TurnTo E.atan E.objectPos obj s.sp }
  | .Size => .ok s
  | .SetSize size => .ok { s with sp := SetSize size s.sp }
  | .ChangeSize delta => .ok { s with sp := ChangeSize delta s.sp }
  | .TouchingColor _ => .error "todo"
  | .Touching obj =>
    match Touching E.backend s.sp obj with
    | .ok _ => .ok s
    | .error e => .error e
  | .BounceOffEdge => .ok { s with sp := BounceOffEdge E.backend s.sp }
  | .GoBackLayers _ => .ok (gameCall "goBackByLayers" s)
  | .GotoFront _ => .ok (gameCall "goBackByLayers" s)
  | .Stamp => .ok (gameCall "stampCostume" (gameCall "getDrawInfo" s))
  | .PenUp => .ok { s with sp := PenUp s.sp }
  | .PenDown => .ok { s with sp := PenDown s.sp }
  | .SetPenColor color => .ok { s with sp := SetPenColor E.RGB2HSV color s.sp }
  | .ChangePenColor _ => .error "todo"
  | .SetPenShade shade => .ok { s with sp := SetPenShade E.clr shade s.sp }
  | .ChangePenShade delta => .ok { s with sp := ChangePenShade E.clr delta s.sp }
  | .SetPenHue hue => .ok { s with sp := SetPenHue E.clr hue s.sp }
  | .ChangePenHue delta => .ok { s with sp := ChangePenHue E.clr delta s.sp }
  | .SetPenSize size => .ok { s with sp := SetPenSize size s.sp }
  | .ChangePenSize delta => .ok { s with sp := ChangePenSize delta s.sp }

end Run

/-! ## Reading a trace -/

/-- The scheduler and position events of a trace: the pen-canvas calls are
left out. -/
def schedule {α : Type} (t : List (Event α)) : List (Event α) :=
  t.filter fun e =>
    match e with
    | Event.movePen _ _ _ => false
    | _ => true

/-- The positions assigned by `doMoveTo`, in order. -/
def commits {α : Type} (t : List (Event α)) : List (α × α) :=
  t.filterMap fun e =>
    match e with
    | Event.setPos x y => some (x, y)
    | _ => none

/-- The pen-canvas calls of a trace, in order: the sprite as it is passed and
the target of the segment. -/
def penCalls {α : Type} (t : List (Event α)) : List (Sprite α × α × α) :=
  t.filterMap fun e =>
    match e with
    | Event.movePen p x y => some (p, x, y)
    | _ => none

section GlideSpec

variable {α : Type} [LinearOrderedField α] [FloorRing α]

/-- The tick count of `Glide` in the words of the spec: the duration in whole
nanoseconds, which is the `int64(secs * 1e9)` of the code, divided by the tick
of `1e8` nanoseconds and rounded down. -/
def glideTicks (outOfRange : α → ℤ) (secs : α) : ℤ :=
  ⌊((int64OfFloat outOfRange (float64Mul secs 1000000000) : ℤ) : ℚ) / (100000000 : ℚ)⌋

end GlideSpec

/-! ## The edge test in the spec's words -/

section EdgeSpec

variable {α : Type} [LinearOrderedField α] {G : Type}

/-- The four edge tests in the fixed order left, top, right, bottom: the edge
bit and the rectangle `(x1, y1, x2, y2)` queried for it. -/
def edgeOrder (b : Backend α G) (p : Sprite α) : List (ℤ × α × α × α × α) :=
  [(touchingScreenLeft, -100000000, -100000000, 0, 100000000),
   (touchingScreenTop, -100000000, -100000000, 100000000, 0),
   (touchingScreenRight, (b.size p).1, -100000000, 100000000, 100000000),
   (touchingScreenBottom, -100000000, (b.size p).2, 100000000, 100000000)]

/-- An edge test is a hit when its bit is requested by `where_` and the
backend reports the rectangle overlapping. -/
def edgeHit {β : Type} (b : Backend β G) (spr : G) (where_ : ℤ) (e : ℤ × β × β × β × β) :
    Bool :=
  decide (Int.land where_ e.1 ≠ 0) && b.TouchingRect spr e.2.1 e.2.2.1 e.2.2.2.1 e.2.2.2.2

/-- The edge test as the spec words it: without a raster the answer is `0`;
otherwise it is the bit of the first hit in the fixed order, or `0` when
there is none. -/
def firstEdgeHit (b : Backend α G) (p : Sprite α) (where_ : ℤ) : ℤ :=
  match b.getGdiSprite p with
  | none => 0
  | some spr =>
    match (edgeOrder b p).find? (edgeHit b spr where_) with
    | some e => e.1
    | none => 0

end EdgeSpec

/-! ## Concrete inputs -/

/-- A sprite at the origin heading right, pen down. -/
def sampleSprite : Sprite ℚ :=
  { name := "sprite", x := 0, y := 0, scale := 1, direction := 90, rotationStyle := 0,
    say := none, penColor := { R := 0, G := 0, B := 0, A := 255 }, penShade := 2,
    penHue := 0, penWidth := 1, visible := true, isDraggable := false, isCloned := false,
    isPenDown := true }

/-- A sprite at the origin with the given heading, pen up, over any field. -/
def originSprite (α : Type) [LinearOrderedField α] (direction : α) : Sprite α :=
  { name := "sprite", x := 0, y := 0, scale := 1, direction := direction, rotationStyle := 0,
    say := none, penColor := { R := 0, G := 0, B := 0, A := 255 }, penShade := 50,
    penHue := 0, penWidth := 1, visible := true, isDraggable := false, isCloned := false,
    isPenDown := false }

/-- A backend on an 800 by 600 screen whose raster overlaps the top and the
right edge rectangles and no other rectangle. -/
def topRightBackend : Backend ℚ Unit :=
  { getGdiSprite := fun _ => some ()
    TouchingRect := fun _ x1 _ _ y2 => decide (x1 = 800) || decide (y2 = 0)
    Touching := fun _ _ => false
    size := fun _ => (800, 600)
    touchingSpriteBy := fun _ _ => false
    getMousePos := (0, 0)
    touchingPoint := fun _ _ _ => false }

/-- A backend on an 800 by 600 screen whose raster overlaps the right edge
rectangle only. -/
def rightBackend : Backend ℚ Unit :=
  { topRightBackend with TouchingRect := fun _ x1 _ _ _ => decide (x1 = 800) }

/-! ## Theorems -/

section DirectionTheorems

variable {α : Type} [LinearOrderedField α]

theorem lor_right_top : Int.lor touchingScreenRight touchingScreenTop = 6 := by decide

theorem lor_right_bottom : Int.lor touchingScreenRight touchingScreenBottom = 12 := by decide

theorem lor_left_top : Int.lor touchingScreenLeft touchingScreenTop = 3 := by decide

theorem lor_left_bottom : Int.lor touchingScreenLeft touchingScreenBottom = 9 := by decide

/-- C1: `checkTouchingDirection d` follows the boundary table, whose rows
cover every heading `d` in `(-180, 180]`: `0` gives top (2); `(0, 90)` gives
right|top (6); `90` gives right (4); `(90, 180)` gives right|bottom (12); `180`
gives bottom (8); `(-90, 0)` gives left|top (3); `-90` gives left (1);
`(-180, -90)` gives left|bottom (9). -/
theorem checkTouchingDirection_table (d : α) :
    (d = 0 → checkTouchingDirection d = 2) ∧
    (0 < d → d < 90 → checkTouchingDirection d = 6) ∧
    (d = 90 → checkTouchingDirection d = 4) ∧
    (90 < d → d < 180 → checkTouchingDirection d = 12) ∧
    (d = 180 → checkTouchingDirection d = 8) ∧
    (-90 < d → d < 0 → checkTouchingDirection d = 3) ∧
    (d = -90 → checkTouchingDirection d = 1) ∧
    (-180 < d → d < -90 → checkTouchingDirection d = 9) := by
  refine ⟨?_, ?_, ?_, ?_, ?_, ?_, ?_, ?_⟩
  · intro h
    subst h
    simp [checkTouchingDirection, touchingScreenTop]
  · intro h1 h2
    simp [checkTouchingDirection, h1, h2, lor_right_top]
  · intro h
    subst h
    norm_num [checkTouchingDirection, touchingScreenRight]
  · intro h1 h2
    have h0 : (0 : α) < d := lt_trans (by norm_num) h1
    simp [checkTouchingDirection, h0, not_lt.mpr h1.le, h1, ne_of_lt h2, lor_right_bottom]
  · intro h
    subst h
    norm_num [checkTouchingDirection, touchingScreenBottom]
  · intro h1 h2
    simp [checkTouchingDirection, not_lt.mpr h2.le, h1, h2, lor_left_top]
  · intro h
    subst h
    norm_num [checkTouchingDirection, touchingScreenLeft]
  · intro h1 h2
    have h0 : d < 0 := lt_trans h2 (by norm_num)
    simp [checkTouchingDirection, not_lt.mpr h0.le, h0, not_lt.mpr h2.le, h2, lor_left_bottom]

/-- C1 at the heading `45` over `ℚ`: the mask is right|top. -/
theorem checkTouchingDirection_table_witness :
    (0 : ℚ) < 45 ∧ (45 : ℚ) < 90 ∧ checkTouchingDirection (45 : ℚ) = 6 :=
  ⟨by norm_num, by norm_num,
    (checkTouchingDirection_table (45 : ℚ)).2.1 (by norm_num) (by norm_num)⟩

end DirectionTheorems


/-! ### Bit masks -/

theorem land_two_pow (w : ℤ) (k : ℕ) :
    Int.land w ((2 ^ k : ℕ) : ℤ) = if w.testBit k = true then ((2 ^ k : ℕ) : ℤ) else 0 := by
  cases w with
  | ofNat n =>
    show ((n &&& 2 ^ k : ℕ) : ℤ) = _
    rw [Nat.and_two_pow]
    show _ = if n.testBit k = true then _ else _
    cases n.testBit k <;> simp
  | negSucc n =>
    show ((Nat.ldiff (2 ^ k) n : ℕ) : ℤ) = if (!n.testBit k) = true then _ else _
    have h : Nat.ldiff (2 ^ k) n = if n.testBit k = true then 0 else 2 ^ k := by
      apply Nat.eq_of_testBit_eq
      intro i
      rw [Nat.testBit_ldiff, Nat.testBit_two_pow]
      by_cases hki : k = i
      · subst hki
        cases hn : n.testBit k <;> simp
      · cases hn : n.testBit k <;> simp [hki, Nat.testBit_two_pow]
    rw [h]
    cases n.testBit k <;> simp

theorem land_bit_cases (w e : ℤ) (he : e = 1 ∨ e = 2 ∨ e = 4 ∨ e = 8) :
    Int.land w e = 0 ∨ Int.land w e = e := by
  have h0 := land_two_pow w 0
  have h1 := land_two_pow w 1
  have h2 := land_two_pow w 2
  have h3 := land_two_pow w 3
  norm_num at h0 h1 h2 h3
  rcases he with rfl | rfl | rfl | rfl
  · rw [h0]; split <;> simp
  · rw [h1]; split <;> simp
  · rw [h2]; split <;> simp
  · rw [h3]; split <;> simp

theorem land_eq_of_ne_zero (w e : ℤ) (he : e = 1 ∨ e = 2 ∨ e = 4 ∨ e = 8)
    (h : Int.land w e ≠ 0) : Int.land w e = e :=
  (land_bit_cases w e he).resolve_left h

/-! ### The edge test -/

theorem edgeHit_iff {β G : Type} (b : Backend β G) (spr : G) (w e : ℤ) (x1 y1 x2 y2 : β) :
    edgeHit b spr w (e, x1, y1, x2, y2) = true ↔
      (Int.land w e ≠ 0 ∧ b.TouchingRect spr x1 y1 x2 y2 = true) := by
  simp [edgeHit]

section TouchTheorems

variable {α : Type} [LinearOrderedField α] {G : Type}

theorem checkTouchingScreen_eq_firstEdgeHit (b : Backend α G) (p : Sprite α) (w : ℤ) :
    checkTouchingScreen b p w = firstEdgeHit b p w := by
  unfold checkTouchingScreen firstEdgeHit
  cases hg : b.getGdiSprite p with
  | none => rfl
  | some spr =>
    simp only [edgeOrder, List.find?, ← edgeHit_iff]
    cases edgeHit b spr w (touchingScreenLeft, -100000000, -100000000, 0, 100000000) <;>
    cases edgeHit b spr w (touchingScreenTop, -100000000, -100000000, 100000000, 0) <;>
    cases edgeHit b spr w (touchingScreenRight, (b.size p).1, -100000000, 100000000, 100000000) <;>
    cases edgeHit b spr w (touchingScreenBottom, -100000000, (b.size p).2, 100000000, 100000000) <;>
    simp

theorem checkTouchingScreen_none (b : Backend α G) (p : Sprite α) (w : ℤ)
    (h : b.getGdiSprite p = none) : checkTouchingScreen b p w = 0 := by
  simp [checkTouchingScreen, h]

/-- The value of `checkTouchingScreen` on a sprite with a raster, by the four
hits in order. -/
theorem checkTouchingScreen_some (b : Backend α G) (p : Sprite α) (w : ℤ) (spr : G)
    (h : b.getGdiSprite p = some spr) :
    checkTouchingScreen b p w =
      if edgeHit b spr w (touchingScreenLeft, -100000000, -100000000, 0, 100000000) = true then
        touchingScreenLeft
      else if edgeHit b spr w (touchingScreenTop, -100000000, -100000000, 100000000, 0) = true then
        touchingScreenTop
      else if edgeHit b spr w
          (touchingScreenRight, (b.size p).1, -100000000, 100000000, 100000000) = true then
        touchingScreenRight
      else if edgeHit b spr w
          (touchingScreenBottom, -100000000, (b.size p).2, 100000000, 100000000) = true then
        touchingScreenBottom
      else 0 := by
  simp only [checkTouchingScreen, h, ← edgeHit_iff]

theorem checkTouchingScreen_values (b : Backend α G) (p : Sprite α) (w : ℤ) :
    checkTouchingScreen b p w = 0 ∨
      ((checkTouchingScreen b p w = 1 ∨ checkTouchingScreen b p w = 2 ∨
          checkTouchingScreen b p w = 4 ∨ checkTouchingScreen b p w = 8) ∧
        Int.land w (checkTouchingScreen b p w) ≠ 0) := by
  cases hg : b.getGdiSprite p with
  | none => exact Or.inl (checkTouchingScreen_none b p w hg)
  | some spr =>
    rw [checkTouchingScreen_some b p w spr hg]
    split_ifs with h1 h2 h3 h4
    · exact Or.inr ⟨Or.inl rfl, ((edgeHit_iff ..).1 h1).1⟩
    · exact Or.inr ⟨Or.inr (Or.inl rfl), ((edgeHit_iff ..).1 h2).1⟩
    · exact Or.inr ⟨Or.inr (Or.inr (Or.inl rfl)), ((edgeHit_iff ..).1 h3).1⟩
    · exact Or.inr ⟨Or.inr (Or.inr (Or.inr rfl)), ((edgeHit_iff ..).1 h4).1⟩
    · exact Or.inl rfl

/-- C3: `checkTouchingScreen` returns `0` or exactly one of the edge bits
`1, 2, 4, 8`; a returned bit is contained in the request mask; the result is
the bit of the first test, in the order left, top, right, bottom, that is both
requested and reported overlapping; and it is `0` without a raster and when no
requested edge overlaps. -/
theorem checkTouchingScreen_first_requested_hit (b : Backend α G) (p : Sprite α) (w : ℤ) :
    (checkTouchingScreen b p w = 0 ∨ checkTouchingScreen b p w = touchingScreenLeft ∨
      checkTouchingScreen b p w = touchingScreenTop ∨
      checkTouchingScreen b p w = touchingScreenRight ∨
      checkTouchingScreen b p w = touchingScreenBottom) ∧
    (checkTouchingScreen b p w ≠ 0 →
      Int.land w (checkTouchingScreen b p w) = checkTouchingScreen b p w) ∧
    checkTouchingScreen b p w = firstEdgeHit b p w ∧
    (∀ spr, b.getGdiSprite p = some spr →
      ∀ (i : ℕ) (e : ℤ × α × α × α × α), (edgeOrder b p)[i]? = some e →
        edgeHit b spr w e = true →
        (∀ (j : ℕ) (e' : ℤ × α × α × α × α), j < i → (edgeOrder b p)[j]? = some e' →
          edgeHit b spr w e' = false) →
        checkTouchingScreen b p w = e.1) ∧
    (b.getGdiSprite p = none → checkTouchingScreen b p w = 0) ∧
    (∀ spr, b.getGdiSprite p = some spr →
      (∀ e ∈ edgeOrder b p, edgeHit b spr w e = false) → checkTouchingScreen b p w = 0) := by
  refine ⟨?_, ?_, checkTouchingScreen_eq_firstEdgeHit b p w, ?_,
    checkTouchingScreen_none b p w, ?_⟩
  · rcases checkTouchingScreen_values b p w with h | ⟨h | h | h | h, -⟩
    · exact Or.inl h
    · exact Or.inr (Or.inl h)
    · exact Or.inr (Or.inr (Or.inl h))
    · exact Or.inr (Or.inr (Or.inr (Or.inl h)))
    · exact Or.inr (Or.inr (Or.inr (Or.inr h)))
  · intro hne
    rcases checkTouchingScreen_values b p w with h | ⟨h, h'⟩
    · exact absurd h hne
    · exact land_eq_of_ne_zero w _ h h'
  · intro spr hg i e hi he hbefore
    rw [checkTouchingScreen_some b p w spr hg]
    have h0 := hbefore 0
    have h1 := hbefore 1
    have h2 := hbefore 2
    simp only [edgeOrder] at hi h0 h1 h2
    match i, hi with
    | 0, hi =>
      simp at hi
      subst hi
      simp [he]
    | 1, hi =>
      simp at hi h0
      subst hi
      simp [he, h0]
    | 2, hi =>
      simp at hi h0 h1
      subst hi
      simp [he, h0, h1]
    | 3, hi =>
      simp at hi h0 h1 h2
      subst hi
      simp [he, h0, h1, h2]
    | (n + 4), hi => simp at hi
  · intro spr hg hall
    rw [checkTouchingScreen_some b p w spr hg]
    simp only [edgeOrder, List.mem_cons, List.mem_singleton, forall_eq_or_imp, forall_eq,
      List.not_mem_nil, false_implies, implies_true, and_true] at hall
    simp [hall.1, hall.2.1, hall.2.2.1, hall.2.2.2]

end TouchTheorems

/-- C3 on the top-right backend with every edge requested (`where = 15`): the
top test is the first hit, before the right one. -/
theorem checkTouchingScreen_first_requested_hit_witness :
    checkTouchingScreen topRightBackend sampleSprite 15 = touchingScreenTop :=
  (checkTouchingScreen_first_requested_hit topRightBackend sampleSprite 15).2.2.2.1 ()
    rfl 1 (touchingScreenTop, -100000000, -100000000, 100000000, 0) rfl
    (by simp [edgeHit, topRightBackend, touchingScreenTop]; decide) (by
      intro j e' hj he'
      have hj0 : j = 0 := by omega
      subst hj0
      simp [edgeOrder] at he'
      subst he'
      norm_num [edgeHit, topRightBackend])

section BounceTheorems

variable {α : Type} [LinearOrderedField α] [FloorRing α] {G : Type}

theorem land_left_right :
    Int.land touchingScreenLeft (Int.lor touchingScreenLeft touchingScreenRight) ≠ 0 ∧
    Int.land touchingScreenRight (Int.lor touchingScreenLeft touchingScreenRight) ≠ 0 ∧
    Int.land touchingScreenTop (Int.lor touchingScreenLeft touchingScreenRight) = 0 ∧
    Int.land touchingScreenBottom (Int.lor touchingScreenLeft touchingScreenRight) = 0 := by
  decide

theorem BounceOffEdge_direction (b : Backend α G) (p : Sprite α) :
    (BounceOffEdge b p).direction =
      if checkTouchingScreen b p (checkTouchingDirection p.direction) = 0 then p.direction
      else normalizeDirection
        (if Int.land (checkTouchingScreen b p (checkTouchingDirection p.direction))
            (Int.lor touchingScreenLeft touchingScreenRight) ≠ 0 then -p.direction
          else 180 - p.direction) := by
  unfold BounceOffEdge Heading
  dsimp only
  split_ifs <;> rfl

theorem normalizeDirection_of_mem (d : α) (h1 : -180 < d) (h2 : d ≤ 180) :
    normalizeDirection d = d := by
  have hf : ⌊(d + 180) / 360⌋ = 0 ∨ d = 180 := by
    rcases eq_or_lt_of_le h2 with h | h
    · exact Or.inr h
    · left
      rw [Int.floor_eq_iff]
      constructor
      · simp only [Int.cast_zero]
        apply div_nonneg <;> linarith
      · simp only [Int.cast_zero, zero_add]
        rw [div_lt_one (by norm_num)]
        linarith
  rcases hf with hf | hf
  · simp only [normalizeDirection, hf, Int.cast_zero, mul_zero, sub_zero]
    rw [if_neg (ne_of_gt h1)]
  · subst hf
    have : ⌊((180 : α) + 180) / 360⌋ = 1 := by
      rw [Int.floor_eq_iff]
      norm_num
    simp only [normalizeDirection, this]
    norm_num

/-- C2: `BounceOffEdge` reflects the heading `d`.  With `t` the answer of the
edge test restricted to `checkTouchingDirection d`: if `t` is `0` the heading
stays `d`; if `t` is left or right the new heading is `normalizeDirection (-d)`;
if `t` is top or bottom it is `normalizeDirection (180 - d)`.  A sprite heading
`90` whose raster overlaps the right edge turns to `-90`, and a sprite heading
`45` whose raster overlaps the top edge (whether or not it also overlaps the
right edge) turns to `135`. -/
theorem BounceOffEdge_heading (b : Backend α G) (p : Sprite α) :
    (checkTouchingScreen b p (checkTouchingDirection p.direction) = 0 →
      (BounceOffEdge b p).direction = p.direction) ∧
    (checkTouchingScreen b p (checkTouchingDirection p.direction) = touchingScreenLeft ∨
      checkTouchingScreen b p (checkTouchingDirection p.direction) = touchingScreenRight →
      (BounceOffEdge b p).direction = normalizeDirection (-p.direction)) ∧
    (checkTouchingScreen b p (checkTouchingDirection p.direction) = touchingScreenTop ∨
      checkTouchingScreen b p (checkTouchingDirection p.direction) = touchingScreenBottom →
      (BounceOffEdge b p).direction = normalizeDirection (180 - p.direction)) ∧
    (∀ spr, p.direction = 90 → b.getGdiSprite p = some spr →
      b.TouchingRect spr (b.size p).1 (-100000000) 100000000 100000000 = true →
      (BounceOffEdge b p).direction = -90) ∧
    (∀ spr, p.direction = 45 → b.getGdiSprite p = some spr →
      b.TouchingRect spr (-100000000) (-100000000) 100000000 0 = true →
      (BounceOffEdge b p).direction = 135) := by
  rw [BounceOffEdge_direction]
  refine ⟨?_, ?_, ?_, ?_, ?_⟩
  · intro h
    rw [if_pos h]
  · rintro (h | h)
    · rw [h, if_neg (by decide), if_pos land_left_right.1]
    · rw [h, if_neg (by decide), if_pos land_left_right.2.1]
  · rintro (h | h)
    · rw [h, if_neg (by decide), if_neg (not_not.mpr land_left_right.2.2.1)]
    · rw [h, if_neg (by decide), if_neg (not_not.mpr land_left_right.2.2.2)]
  · intro spr hd hg hr
    have hw : checkTouchingDirection p.direction = touchingScreenRight := by
      rw [hd]
      norm_num [checkTouchingDirection]
    have ht : checkTouchingScreen b p (checkTouchingDirection p.direction) =
        touchingScreenRight := by
      rw [hw, checkTouchingScreen_some b p _ spr hg]
      have h1 : Int.land touchingScreenRight touchingScreenLeft = 0 := by decide
      have h2 : Int.land touchingScreenRight touchingScreenTop = 0 := by decide
      have h3 : Int.land touchingScreenRight touchingScreenRight ≠ 0 := by decide
      simp [edgeHit, h1, h2, h3, hr]
    rw [ht, if_neg (by decide), if_pos land_left_right.2.1, hd]
    exact normalizeDirection_of_mem _ (by norm_num) (by norm_num)
  · intro spr hd hg htop
    have hw : checkTouchingDirection p.direction =
        Int.lor touchingScreenRight touchingScreenTop := by
      rw [hd]
      norm_num [checkTouchingDirection]
    have ht : checkTouchingScreen b p (checkTouchingDirection p.direction) =
        touchingScreenTop := by
      rw [hw, checkTouchingScreen_some b p _ spr hg]
      have h1 : Int.land (Int.lor touchingScreenRight touchingScreenTop)
          touchingScreenLeft = 0 := by decide
      have h2 : Int.land (Int.lor touchingScreenRight touchingScreenTop)
          touchingScreenTop ≠ 0 := by decide
      simp [edgeHit, h1, h2, htop]
    rw [ht, if_neg (by decide), if_neg (not_not.mpr land_left_right.2.2.1), hd]
    have e : (180 : α) - 45 = 135 := by norm_num
    rw [e]
    exact normalizeDirection_of_mem _ (by norm_num) (by norm_num)

/-- C2 on concrete sprites over `ℚ`: heading `90` on the right edge turns to
`-90`, heading `45` on the top and right edges turns to `135`. -/
theorem BounceOffEdge_heading_witness :
    (BounceOffEdge rightBackend sampleSprite).direction = -90 ∧
    (BounceOffEdge topRightBackend { sampleSprite with direction := 45 }).direction = 135 :=
  ⟨(BounceOffEdge_heading rightBackend sampleSprite).2.2.2.1 () rfl rfl
      (by simp [rightBackend, topRightBackend]),
    (BounceOffEdge_heading topRightBackend { sampleSprite with direction := 45 }).2.2.2.2 ()
      rfl rfl (by simp [topRightBackend])⟩

end BounceTheorems

section TouchingTheorems

variable {α : Type} [LinearOrderedField α] {G : Type}

theorem land_all_edges :
    Int.land touchingAllEdges touchingScreenLeft ≠ 0 ∧
    Int.land touchingAllEdges touchingScreenTop ≠ 0 ∧
    Int.land touchingAllEdges touchingScreenRight ≠ 0 ∧
    Int.land touchingAllEdges touchingScreenBottom ≠ 0 := by
  decide

/-- C4 (the code at the failing input): for the `Random` singleton, and for
every `specialObj` value other than `Edge` and `Mouse`, `Touching` does not
panic but returns `false`; only a value of another dynamic type reaches the
panic of the `default` branch. -/
theorem Touching_Random_returns_false (b : Backend α G) (p : Sprite α) :
    Touching b p (Object.special Random) = Except.ok false ∧
    (∀ v : ℤ, v ≠ Edge → v ≠ Mouse → Touching b p (Object.special v) = Except.ok false) ∧
    Touching b p Object.other = Except.error "Touching: unexpected input" := by
  refine ⟨?_, ?_, ?_⟩
  · simp [Touching, Random, Edge, Mouse]
  · intro v h1 h2
    simp [Touching, h1, h2]
  · rfl

/-- C5: `Touching(Edge)` never panics, and it returns `true` exactly when the
sprite has a raster and at least one of the four screen-edge rectangle queries
(left, top, right, bottom) reports overlap; otherwise it returns `false`. -/
theorem Touching_Edge_iff (b : Backend α G) (p : Sprite α) :
    (Touching b p (Object.special Edge) = Except.ok true ↔
      ∃ spr, b.getGdiSprite p = some spr ∧
        (b.TouchingRect spr (-100000000) (-100000000) 0 100000000 = true ∨
         b.TouchingRect spr (-100000000) (-100000000) 100000000 0 = true ∨
         b.TouchingRect spr (b.size p).1 (-100000000) 100000000 100000000 = true ∨
         b.TouchingRect spr (-100000000) (b.size p).2 100000000 100000000 = true)) ∧
    (Touching b p (Object.special Edge) ≠ Except.ok true →
      Touching b p (Object.special Edge) = Except.ok false) := by
  have hT : Touching b p (Object.special Edge) =
      if checkTouchingScreen b p touchingAllEdges ≠ 0 then Except.ok true
      else Except.ok false := by
    simp [Touching]
  constructor
  · rw [hT]
    cases hg : b.getGdiSprite p with
    | none =>
      rw [checkTouchingScreen_none b p _ hg]
      simp
    | some spr =>
      rw [checkTouchingScreen_some b p _ spr hg]
      have hL := land_all_edges.1
      have hT' := land_all_edges.2.1
      have hR := land_all_edges.2.2.1
      have hB := land_all_edges.2.2.2
      simp only [touchingScreenLeft, touchingScreenTop, touchingScreenRight,
        touchingScreenBottom] at hL hT' hR hB
      rcases Bool.eq_false_or_eq_true
          (b.TouchingRect spr (-100000000) (-100000000) 0 100000000) with h1 | h1 <;>
      rcases Bool.eq_false_or_eq_true
          (b.TouchingRect spr (-100000000) (-100000000) 100000000 0) with h2 | h2 <;>
      rcases Bool.eq_false_or_eq_true
          (b.TouchingRect spr (b.size p).1 (-100000000) 100000000 100000000) with h3 | h3 <;>
      rcases Bool.eq_false_or_eq_true
          (b.TouchingRect spr (-100000000) (b.size p).2 100000000 100000000) with h4 | h4 <;>
      simp [edgeHit, hL, hT', hR, hB, h1, h2, h3, h4, touchingScreenLeft, touchingScreenTop,
        touchingScreenRight, touchingScreenBottom]
  · rw [hT]
    split_ifs <;> simp

end TouchingTheorems

/-! ### Binary64 rounding -/

section Rounding

variable {α : Type} [LinearOrderedField α] [FloorRing α]

theorem roundHalfEven_of_lt (x : α) (f : ℤ) (h1 : (f : α) ≤ x) (h2 : x < (f : α) + 1 / 2) :
    roundHalfEven x = f := by
  have hf : ⌊x⌋ = f := by
    rw [Int.floor_eq_iff]
    exact ⟨h1, by linarith⟩
  unfold roundHalfEven
  rw [hf, if_pos (by linarith)]

theorem roundHalfEven_of_gt (x : α) (f : ℤ) (h1 : (f : α) + 1 / 2 < x) (h2 : x < (f : α) + 1) :
    roundHalfEven x = f + 1 := by
  have hf : ⌊x⌋ = f := by
    rw [Int.floor_eq_iff]
    exact ⟨by linarith, h2⟩
  unfold roundHalfEven
  rw [hf, if_neg (by linarith), if_pos (by linarith)]

theorem int_log_two_eq (q : α) (E : ℤ) (h1 : (2 : α) ^ E ≤ q) (h2 : q < (2 : α) ^ (E + 1)) :
    Int.log 2 q = E := by
  have hq : 0 < q := lt_of_lt_of_le (by positivity) h1
  have a : E ≤ Int.log 2 q := by
    rw [← Int.zpow_le_iff_le_log (by norm_num) hq]
    simpa using h1
  have b : Int.log 2 q < E + 1 := by
    rw [← Int.lt_zpow_iff_log_lt (by norm_num) hq]
    simpa using h2
  omega

/-- The value of `round64` at a number of binary exponent `E` in the normal
range, from the rounding of its significand. -/
theorem round64_eq (q : α) (E z : ℤ) (h1 : (2 : α) ^ E ≤ |q|) (h2 : |q| < (2 : α) ^ (E + 1))
    (hE : -1022 ≤ E) (hz : roundHalfEven (q / (2 : α) ^ (E - 52)) = z) :
    round64 q = (z : α) * (2 : α) ^ (E - 52) := by
  have hpos : 0 < |q| := lt_of_lt_of_le (by positivity) h1
  have hq : q ≠ 0 := abs_pos.mp hpos
  have hlog := int_log_two_eq |q| E h1 h2
  have hk : max (E - 52) (-1074) = E - 52 := max_eq_left (by omega)
  unfold round64
  rw [if_neg hq, hlog, hk, hz]

end Rounding

/-! ### Pen hue and shade -/

section PenTheorems

variable {α : Type} [LinearOrderedField α] [FloorRing α]

theorem mathMod_200_bounds (v : α) :
    (0 ≤ v → 0 ≤ mathMod v 200 ∧ mathMod v 200 < 200) ∧
    (v < 0 → -200 < mathMod v 200 ∧ mathMod v 200 ≤ 0) := by
  constructor
  · intro hv
    have hq : 0 ≤ v / 200 := div_nonneg hv (by norm_num)
    have h1 := Int.floor_le (v / 200)
    have h2 := Int.lt_floor_add_one (v / 200)
    simp only [mathMod, truncToInt, if_pos hq]
    constructor
    · have : (200 : α) * (⌊v / 200⌋ : α) ≤ 200 * (v / 200) :=
        mul_le_mul_of_nonneg_left h1 (by norm_num)
      rw [mul_div_cancel₀ v (by norm_num : (200 : α) ≠ 0)] at this
      linarith
    · have : (200 : α) * (v / 200) < 200 * ((⌊v / 200⌋ : α) + 1) :=
        mul_lt_mul_of_pos_left h2 (by norm_num)
      rw [mul_div_cancel₀ v (by norm_num : (200 : α) ≠ 0)] at this
      linarith
  · intro hv
    have hq : ¬ (0 ≤ v / 200) := not_le.mpr (div_neg_of_neg_of_pos hv (by norm_num))
    have h1 := Int.le_ceil (v / 200)
    have h2 := Int.ceil_lt_add_one (v / 200)
    simp only [mathMod, truncToInt, if_neg hq]
    constructor
    · have : (200 : α) * (⌈v / 200⌉ : α) < 200 * (v / 200 + 1) :=
        mul_lt_mul_of_pos_left h2 (by norm_num)
      rw [mul_add, mul_div_cancel₀ v (by norm_num : (200 : α) ≠ 0)] at this
      linarith
    · have : (200 : α) * (v / 200) ≤ 200 * (⌈v / 200⌉ : α) :=
        mul_le_mul_of_nonneg_left h1 (by norm_num)
      rw [mul_div_cancel₀ v (by norm_num : (200 : α) ≠ 0)] at this
      linarith

theorem setPenHue_penHue (c : Clrutil α) (v : α) (change : Bool) (p : Sprite α) :
    (setPenHue c v change p).penHue =
      (if mathMod (if change = true then float64Add v p.penHue else v) 200 < 0 then
        float64Add (mathMod (if change = true then float64Add v p.penHue else v) 200) 200
      else mathMod (if change = true then float64Add v p.penHue else v) 200) := rfl

theorem setPenShade_penShade (c : Clrutil α) (v : α) (change : Bool) (p : Sprite α) :
    (setPenShade c v change p).penShade =
      (if mathMod (if change = true then float64Add v p.penShade else v) 200 < 0 then
        float64Add (mathMod (if change = true then float64Add v p.penShade else v) 200) 200
      else mathMod (if change = true then float64Add v p.penShade else v) 200) := rfl

end PenTheorems

section PenRange

variable {α : Type} [LinearOrderedField α] [FloorRing α]

theorem mathMod_250 : mathMod (250 : α) 200 = 50 := by
  have hf : ⌊(250 : α) / 200⌋ = 1 := by
    rw [Int.floor_eq_iff]
    norm_num
  have hq : (0 : α) ≤ 250 / 200 := by norm_num
  simp only [mathMod, truncToInt, if_pos hq, hf]
  norm_num

theorem mathMod_neg_10 : mathMod (-10 : α) 200 = -10 := by
  have hf : ⌈(-10 : α) / 200⌉ = 0 := by
    rw [Int.ceil_eq_iff]
    norm_num
  have hq : ¬ ((0 : α) ≤ -10 / 200) := by norm_num
  simp only [mathMod, truncToInt, if_neg hq, hf]
  norm_num

theorem mathMod_tiny_negative : mathMod (-(1 / 2 ^ 70) : ℚ) 200 = -(1 / 2 ^ 70) := by
  have hf : ⌈(-(1 / 2 ^ 70) : ℚ) / 200⌉ = 0 := by
    rw [Int.ceil_eq_iff]
    norm_num
  have hq : ¬ ((0 : ℚ) ≤ -(1 / 2 ^ 70) / 200) := by norm_num
  simp only [mathMod, truncToInt, if_neg hq, hf]
  norm_num

theorem float64Add_tiny_negative_200 : float64Add (-(1 / 2 ^ 70) : ℚ) 200 = 200 := by
  have h := round64_eq (-(1 / 2 ^ 70) + 200 : ℚ) 7 7036874417766400
    (by norm_num [abs_of_pos]) (by norm_num [abs_of_pos]) (by norm_num)
    (by
      rw [show (7036874417766400 : ℤ) = 7036874417766399 + 1 by norm_num]
      apply roundHalfEven_of_gt <;> norm_num)
  rw [float64Add, h]
  norm_num

theorem float64Add_neg_10_200 : float64Add (-10 : ℚ) 200 = 190 := by
  have h := round64_eq (-10 + 200 : ℚ) 7 6685030696878080
    (by norm_num [abs_of_pos]) (by norm_num [abs_of_pos]) (by norm_num)
    (by apply roundHalfEven_of_lt <;> norm_num)
  rw [float64Add, h]
  norm_num

end PenRange

/-- C6 (the code at the failing input): `SetPenHue(250)` stores `50` and
`SetPenHue(-10)` stores `190`, but for the `float64` argument `-2^-70` the
remainder `math.Mod(v, 200)` is `-2^-70` itself, the `float64` addition
`v += 200` rounds `200 - 2^-70` to `200`, and the hue stored is `200`, outside
`[0, 200)`.  The same holds for `SetPenShade`. -/
theorem SetPenHue_tiny_negative_stores_200 (c : Clrutil ℚ) (p : Sprite ℚ) :
    (SetPenHue c 250 p).penHue = 50 ∧
    (SetPenHue c (-10) p).penHue = 190 ∧
    (SetPenHue c (-(1 / 2 ^ 70)) p).penHue = 200 ∧
    (SetPenShade c (-(1 / 2 ^ 70)) p).penShade = 200 ∧
    ¬ ((SetPenHue c (-(1 / 2 ^ 70)) p).penHue < 200) := by
  have h1 : (SetPenHue c 250 p).penHue = 50 := by
    simp only [SetPenHue, setPenHue_penHue, Bool.false_eq_true, if_false, mathMod_250]
    norm_num
  have h2 : (SetPenHue c (-10) p).penHue = 190 := by
    simp only [SetPenHue, setPenHue_penHue, Bool.false_eq_true, if_false, mathMod_neg_10]
    rw [if_pos (by norm_num), float64Add_neg_10_200]
  have h3 : (SetPenHue c (-(1 / 2 ^ 70)) p).penHue = 200 := by
    simp only [SetPenHue, setPenHue_penHue, Bool.false_eq_true, if_false,
      mathMod_tiny_negative]
    rw [if_pos (by norm_num), float64Add_tiny_negative_200]
  have h4 : (SetPenShade c (-(1 / 2 ^ 70)) p).penShade = 200 := by
    simp only [SetPenShade, setPenShade_penShade, Bool.false_eq_true, if_false,
      mathMod_tiny_negative]
    rw [if_pos (by norm_num), float64Add_tiny_negative_200]
  exact ⟨h1, h2, h3, h4, by rw [h3]; norm_num⟩

/-! ### Pen colour -/

section PenColourCore

variable {α : Type} [LinearOrderedField α]

/-- What `doUpdatePenColor` stores, in terms of the hue and shade it reads. -/
theorem doUpdatePenColor_spec (c : Clrutil α) (p : Sprite α) :
    (doUpdatePenColor c p).penHue = p.penHue ∧
    (doUpdatePenColor c p).penShade = p.penShade ∧
    (doUpdatePenColor c p).penColor.A = p.penColor.A ∧
    (((doUpdatePenColor c p).penColor.R, (doUpdatePenColor c p).penColor.G,
        (doUpdatePenColor c p).penColor.B) =
      if (if p.penShade ≤ 100 then p.penShade else 200 - p.penShade) < 50 then
        c.MixRGB 0 0 0 (c.HSV2RGB ((p.penHue * 180) / 100) 1 1).1
          (c.HSV2RGB ((p.penHue * 180) / 100) 1 1).2.1
          (c.HSV2RGB ((p.penHue * 180) / 100) 1 1).2.2
          ((10 + (if p.penShade ≤ 100 then p.penShade else 200 - p.penShade)) / 60)
      else
        c.MixRGB (c.HSV2RGB ((p.penHue * 180) / 100) 1 1).1
          (c.HSV2RGB ((p.penHue * 180) / 100) 1 1).2.1
          (c.HSV2RGB ((p.penHue * 180) / 100) 1 1).2.2 255 255 255
          (((if p.penShade ≤ 100 then p.penShade else 200 - p.penShade) - 50) / 60)) := by
  refine ⟨rfl, rfl, rfl, ?_⟩
  simp only [doUpdatePenColor, gt_iff_lt]
  by_cases h : p.penShade ≤ 100
  · rw [if_neg (not_lt.mpr h), if_pos h]
  · rw [if_pos (not_le.mp h), if_neg h]


end PenColourCore

section PenColour

variable {α : Type} [LinearOrderedField α] [FloorRing α]

theorem mathMod_of_mem (v : α) (h0 : 0 ≤ v) (h1 : v < 200) : mathMod v 200 = v := by
  have hq : 0 ≤ v / 200 := div_nonneg h0 (by norm_num)
  have hf : ⌊v / 200⌋ = 0 := by
    rw [Int.floor_eq_iff]
    refine ⟨by simpa using hq, ?_⟩
    simp only [Int.cast_zero, zero_add]
    rw [div_lt_one (by norm_num)]
    exact h1
  simp [mathMod, truncToInt, hq, hf]

theorem specHSV2RGB_red : specHSV2RGB (0 : α) 1 1 = (255, 0, 0) := by
  simp [specHSV2RGB]

theorem specMixRGB_black_red : specMixRGB 0 0 0 255 0 0 ((12 : α) / 60) = (51, 0, 0) := by
  have h : ((0 : ℕ) : α) + (((255 : ℕ) : α) - ((0 : ℕ) : α)) * (12 / 60) = ((51 : ℕ) : α) := by
    norm_num
  simp only [specMixRGB, h, Nat.floor_natCast]
  simp

theorem specMixRGB_red_black : specMixRGB 255 0 0 0 0 0 ((12 : α) / 60) = (204, 0, 0) := by
  have h : ((255 : ℕ) : α) + (((0 : ℕ) : α) - ((255 : ℕ) : α)) * (12 / 60) = ((204 : ℕ) : α) := by
    norm_num
  simp only [specMixRGB, h, Nat.floor_natCast]
  simp

theorem SetPenShade_sample :
    (SetPenShade specClrutil (2 : ℚ) sampleSprite).penShade = 2 ∧
    (SetPenShade specClrutil (2 : ℚ) sampleSprite).penHue = 0 := by
  constructor
  · rw [SetPenShade, setPenShade_penShade]
    simp only [Bool.false_eq_true, if_false]
    rw [mathMod_of_mem (2 : ℚ) (by norm_num) (by norm_num)]
    norm_num
  · rfl


theorem pen_mutators_recompute (c : Clrutil α) (v : α) (p q : Sprite α)
    (hq : q = SetPenHue c v p ∨ q = ChangePenHue c v p ∨
      q = SetPenShade c v p ∨ q = ChangePenShade c v p) :
    ∃ r : Sprite α, q = doUpdatePenColor c r ∧ r.penColor = p.penColor := by
  rcases hq with h | h | h | h
  · exact ⟨_, h, rfl⟩
  · exact ⟨_, h, rfl⟩
  · exact ⟨_, h, rfl⟩
  · exact ⟨_, h, rfl⟩

/-- The colour stored by any of the four hue and shade mutators, in terms of
the hue and shade it stores. -/
theorem pen_mutators_rgb (c : Clrutil α) (v : α) (p q : Sprite α)
    (hq : q = SetPenHue c v p ∨ q = ChangePenHue c v p ∨
      q = SetPenShade c v p ∨ q = ChangePenShade c v p) :
    q.penColor.A = p.penColor.A ∧
    ((q.penColor.R, q.penColor.G, q.penColor.B) =
      if (if q.penShade ≤ 100 then q.penShade else 200 - q.penShade) < 50 then
        c.MixRGB 0 0 0 (c.HSV2RGB ((q.penHue * 180) / 100) 1 1).1
          (c.HSV2RGB ((q.penHue * 180) / 100) 1 1).2.1
          (c.HSV2RGB ((q.penHue * 180) / 100) 1 1).2.2
          ((10 + (if q.penShade ≤ 100 then q.penShade else 200 - q.penShade)) / 60)
      else
        c.MixRGB (c.HSV2RGB ((q.penHue * 180) / 100) 1 1).1
          (c.HSV2RGB ((q.penHue * 180) / 100) 1 1).2.1
          (c.HSV2RGB ((q.penHue * 180) / 100) 1 1).2.2 255 255 255
          (((if q.penShade ≤ 100 then q.penShade else 200 - q.penShade) - 50) / 60)) := by
  obtain ⟨r, hr, hcol⟩ := pen_mutators_recompute c v p q hq
  have hspec := doUpdatePenColor_spec c r
  rw [← hr] at hspec
  obtain ⟨hhue, hshade, hA, hrgb⟩ := hspec
  rw [← hhue, ← hshade] at hrgb
  exact ⟨by rw [hA, hcol], hrgb⟩

/-- The sample mutation evaluated: `SetPenShade(2)` at hue `0` with the colour
functions of the spec. -/
theorem SetPenShade_sample_rgb :
    ((SetPenShade specClrutil (2 : ℚ) sampleSprite).penColor.R,
      (SetPenShade specClrutil (2 : ℚ) sampleSprite).penColor.G,
      (SetPenShade specClrutil (2 : ℚ) sampleSprite).penColor.B) = (51, 0, 0) := by
  have h := (pen_mutators_rgb specClrutil (2 : ℚ) sampleSprite
    (SetPenShade specClrutil (2 : ℚ) sampleSprite) (Or.inr (Or.inr (Or.inl rfl)))).2
  rw [SetPenShade_sample.1, SetPenShade_sample.2] at h
  rw [h]
  have e1 : ((0 : ℚ) * 180) / 100 = 0 := by norm_num
  have e2 : ((10 : ℚ) + 2) / 60 = 12 / 60 := by norm_num
  have e3 : (if (2 : ℚ) ≤ 100 then (2 : ℚ) else 200 - 2) = 2 := by norm_num
  rw [e3, e1, e2, if_pos (by norm_num)]
  show specMixRGB 0 0 0 (specHSV2RGB (0 : ℚ) 1 1).1 (specHSV2RGB (0 : ℚ) 1 1).2.1
    (specHSV2RGB (0 : ℚ) 1 1).2.2 (12 / 60) = (51, 0, 0)
  rw [specHSV2RGB_red]
  exact specMixRGB_black_red

/-- C7 (amended): after `SetPenHue`, `ChangePenHue`, `SetPenShade` or
`ChangePenShade` the stored pen colour is recomputed from the new
`(penHue, penShade)`.  With `base = HSV2RGB(penHue*180/100, 1, 1)` and
`s = penShade` if `penShade ≤ 100`, else `200 - penShade`: when `s < 50` the
RGB channels are `MixRGB(0, 0, 0, base, (10+s)/60)`, the blend from black
toward the base colour; when `s ≥ 50` they are
`MixRGB(base, 255, 255, 255, (s-50)/60)`, the blend from the base colour toward
white; the alpha channel is the one stored before the mutation. -/
theorem penColor_recomputed (c : Clrutil α) (v : α) (p q : Sprite α)
    (hq : q = SetPenHue c v p ∨ q = ChangePenHue c v p ∨
      q = SetPenShade c v p ∨ q = ChangePenShade c v p)
    (base : ℕ × ℕ × ℕ) (s : α)
    (hbase : base = c.HSV2RGB ((q.penHue * 180) / 100) 1 1)
    (hs : s = if q.penShade ≤ 100 then q.penShade else 200 - q.penShade) :
    (s < 50 → (q.penColor.R, q.penColor.G, q.penColor.B) =
      c.MixRGB 0 0 0 base.1 base.2.1 base.2.2 ((10 + s) / 60)) ∧
    (50 ≤ s → (q.penColor.R, q.penColor.G, q.penColor.B) =
      c.MixRGB base.1 base.2.1 base.2.2 255 255 255 ((s - 50) / 60)) ∧
    q.penColor.A = p.penColor.A := by
  obtain ⟨hA, hrgb⟩ := pen_mutators_rgb c v p q hq
  rw [← hs, ← hbase] at hrgb
  refine ⟨?_, ?_, hA⟩
  · intro h
    rw [hrgb, if_pos h]
  · intro h
    rw [hrgb, if_neg (not_lt.mpr h)]

/-- C7 (amended) on the sample sprite over `ℚ`: setting shade `2` at hue `0`
stores the blend from black toward red with ratio `12/60`, and keeps the
alpha `255`. -/
theorem penColor_recomputed_witness :
    ((SetPenShade specClrutil (2 : ℚ) sampleSprite).penColor.R,
      (SetPenShade specClrutil (2 : ℚ) sampleSprite).penColor.G,
      (SetPenShade specClrutil (2 : ℚ) sampleSprite).penColor.B) =
      specMixRGB 0 0 0 255 0 0 (((10 : ℚ) + 2) / 60) ∧
    (SetPenShade specClrutil (2 : ℚ) sampleSprite).penColor.A = 255 :=
  have h := penColor_recomputed specClrutil (2 : ℚ) sampleSprite
    (SetPenShade specClrutil (2 : ℚ) sampleSprite) (Or.inr (Or.inr (Or.inl rfl)))
    (255, 0, 0) 2
    (by
      rw [SetPenShade_sample.2]
      have e1 : ((0 : ℚ) * 180) / 100 = 0 := by norm_num
      rw [e1]
      exact specHSV2RGB_red.symm)
    (by rw [SetPenShade_sample.1]; norm_num)
  ⟨h.1 (by norm_num), h.2.2⟩

/-- C7 as stated fails.  On the sample sprite over `ℚ` with the colour
functions of the spec, `SetPenShade(2)` at hue `0` stores the RGB channels
`(51, 0, 0)`, the blend from black toward red with ratio `12/60`, while the
blend of the base colour toward black with that ratio is `(204, 0, 0)`. -/
theorem penColor_base_toward_black_fails :
    ((SetPenShade specClrutil (2 : ℚ) sampleSprite).penColor.R,
      (SetPenShade specClrutil (2 : ℚ) sampleSprite).penColor.G,
      (SetPenShade specClrutil (2 : ℚ) sampleSprite).penColor.B) = (51, 0, 0) ∧
    claimedPenRGB specClrutil (SetPenShade specClrutil (2 : ℚ) sampleSprite).penHue
      (SetPenShade specClrutil (2 : ℚ) sampleSprite).penShade = (204, 0, 0) ∧
    ((SetPenShade specClrutil (2 : ℚ) sampleSprite).penColor.R,
      (SetPenShade specClrutil (2 : ℚ) sampleSprite).penColor.G,
      (SetPenShade specClrutil (2 : ℚ) sampleSprite).penColor.B) ≠
    claimedPenRGB specClrutil (SetPenShade specClrutil (2 : ℚ) sampleSprite).penHue
      (SetPenShade specClrutil (2 : ℚ) sampleSprite).penShade := by
  have hclaim : claimedPenRGB specClrutil
      (SetPenShade specClrutil (2 : ℚ) sampleSprite).penHue
      (SetPenShade specClrutil (2 : ℚ) sampleSprite).penShade = (204, 0, 0) := by
    rw [SetPenShade_sample.1, SetPenShade_sample.2]
    have e1 : ((0 : ℚ) * 180) / 100 = 0 := by norm_num
    have e2 : ((10 : ℚ) + 2) / 60 = 12 / 60 := by norm_num
    have e3 : (if (2 : ℚ) ≤ 100 then (2 : ℚ) else 200 - 2) = 2 := by norm_num
    simp only [claimedPenRGB]
    rw [e3, e1, e2, if_pos (by norm_num)]
    show specMixRGB (specHSV2RGB (0 : ℚ) 1 1).1 (specHSV2RGB (0 : ℚ) 1 1).2.1
      (specHSV2RGB (0 : ℚ) 1 1).2.2 0 0 0 (12 / 60) = (204, 0, 0)
    rw [specHSV2RGB_red]
    exact specMixRGB_red_black
  refine ⟨SetPenShade_sample_rgb, hclaim, ?_⟩
  rw [SetPenShade_sample_rgb, hclaim]
  decide

end PenColour

/-! ### Position mutators -/

theorem doMoveTo_spec {β : Type} (x y : β) (s : St β) :
    (doMoveTo x y s).sp = { s.sp with x := x, y := y } ∧
    (s.sp.isPenDown = true →
      (doMoveTo x y s).trace = s.trace ++ [Event.movePen s.sp x y, Event.setPos x y]) ∧
    (s.sp.isPenDown = false → (doMoveTo x y s).trace = s.trace ++ [Event.setPos x y]) := by
  refine ⟨?_, ?_, ?_⟩
  · unfold doMoveTo
    split_ifs <;> rfl
  · intro h
    simp [doMoveTo, h]
  · intro h
    simp [doMoveTo, h]

theorem schedule_doMoveTo {β : Type} (x y : β) (s : St β) :
    schedule (doMoveTo x y s).trace = schedule s.trace ++ [Event.setPos x y] := by
  cases h : s.sp.isPenDown
  · rw [(doMoveTo_spec x y s).2.2 h]
    simp [schedule, List.filter_append]
  · rw [(doMoveTo_spec x y s).2.1 h]
    simp [schedule, List.filter_append]

theorem schedule_sleep {β : Type} (ns : ℤ) (s : St β) :
    schedule (sleep ns s).trace = schedule s.trace ++ [Event.sleep ns] := by
  simp [sleep, schedule, List.filter_append]

section MoveTheorems

variable {α : Type} [LinearOrderedField α]

/-- C10: every position mutator (`SetXY`, `SetXpos`, `SetYpos`, `ChangeXpos`,
`ChangeYpos`, `Step`) with target `(tx, ty)`: when the pen is down it adds
exactly one pen-canvas call to the trace, carrying the target and the sprite as
it is before the move (so at its old position), followed by the assignment of
the target; when the pen is up it adds no pen-canvas call, only the
assignment; in both cases the sprite afterwards is the old one with its
position replaced by the target. -/
theorem position_mutators_pen (a b : α) (s : St α) (m : St α → St α) (tx ty : α)
    (hm : (m = SetXY a b ∧ tx = a ∧ ty = b) ∨
      (m = SetXpos a ∧ tx = a ∧ ty = s.sp.y) ∨
      (m = SetYpos b ∧ tx = s.sp.x ∧ ty = b) ∨
      (m = ChangeXpos a ∧ tx = s.sp.x + a ∧ ty = s.sp.y) ∨
      (m = ChangeYpos b ∧ tx = s.sp.x ∧ ty = s.sp.y + b) ∨
      (∃ T : Trig α, m = Step T a ∧
        tx = s.sp.x + a * (T.Sincos (T.toRadian s.sp.direction)).1 ∧
        ty = s.sp.y + a * (T.Sincos (T.toRadian s.sp.direction)).2)) :
    (s.sp.isPenDown = true →
      (m s).trace = s.trace ++ [Event.movePen s.sp tx ty, Event.setPos tx ty] ∧
      penCalls (m s).trace = penCalls s.trace ++ [(s.sp, tx, ty)]) ∧
    (s.sp.isPenDown = false →
      (m s).trace = s.trace ++ [Event.setPos tx ty] ∧
      penCalls (m s).trace = penCalls s.trace) ∧
    (m s).sp = { s.sp with x := tx, y := ty } := by
  have hms : m s = doMoveTo tx ty s := by
    rcases hm with ⟨h, h1, h2⟩ | ⟨h, h1, h2⟩ | ⟨h, h1, h2⟩ | ⟨h, h1, h2⟩ | ⟨h, h1, h2⟩ |
      ⟨T, h, h1, h2⟩ <;> subst h h1 h2 <;> rfl
  rw [hms]
  obtain ⟨h1, h2, h3⟩ := doMoveTo_spec tx ty s
  refine ⟨fun h => ⟨h2 h, ?_⟩, fun h => ⟨h3 h, ?_⟩, h1⟩
  · rw [h2 h]
    simp [penCalls, List.filterMap_append]
  · rw [h3 h]
    simp [penCalls, List.filterMap_append]

/-- C10 on the sample sprite over `ℚ`: a pen-down `SetXY(10, 0)` from `(0, 0)`
issues one pen-canvas call, from the sprite at `(0, 0)` to `(10, 0)`, and then
assigns `(10, 0)`. -/
theorem position_mutators_pen_witness :
    sampleSprite.x = 0 ∧ sampleSprite.y = 0 ∧
    (SetXY (10 : ℚ) 0 { sp := sampleSprite, trace := [] }).trace =
      [Event.movePen sampleSprite 10 0, Event.setPos 10 0] ∧
    penCalls (SetXY (10 : ℚ) 0 { sp := sampleSprite, trace := [] }).trace =
      [(sampleSprite, 10, 0)] ∧
    (SetXY (10 : ℚ) 0 { sp := sampleSprite, trace := [] }).sp =
      { sampleSprite with x := 10, y := 0 } :=
  have h := position_mutators_pen (10 : ℚ) 0 { sp := sampleSprite, trace := [] }
    (SetXY 10 0) 10 0 (Or.inl ⟨rfl, rfl, rfl⟩)
  ⟨rfl, rfl, (h.1 rfl).1, (h.1 rfl).2, h.2.2⟩

end MoveTheorems

/-! ### Glide -/

section GlideLoop

variable {α : Type} [LinearOrderedField α]

theorem glideLoop_spec (dx dy : α) (n : ℤ) (k : ℕ) :
    ∀ (i : ℤ) (v : GlideVars α), (n - i).toNat = k →
      (glideLoop dx dy n i v).inDur = v.inDur - (k : ℤ) * glideTick ∧
      (glideLoop dx dy n i v).x0 = v.x0 + (k : α) * dx ∧
      (glideLoop dx dy n i v).y0 = v.y0 + (k : α) * dy ∧
      schedule (glideLoop dx dy n i v).st.trace = schedule v.st.trace ++
        (List.range k).flatMap (fun (j : ℕ) =>
          [Event.sleep glideTick,
            Event.setPos (v.x0 + ((j : α) + 1) * dx) (v.y0 + ((j : α) + 1) * dy)]) := by
  induction k with
  | zero =>
    intro i v h
    have hi : ¬ i < n := by omega
    rw [glideLoop, if_neg hi]
    simp
  | succ k ih =>
    intro i v h
    have hi : i < n := by omega
    rw [glideLoop, if_pos hi]
    obtain ⟨h1, h2, h3, h4⟩ := ih (i + 1)
      { inDur := v.inDur - glideTick, x0 := v.x0 + dx, y0 := v.y0 + dy,
        st := SetXY (v.x0 + dx) (v.y0 + dy) (sleep glideTick v.st) } (by omega)
    refine ⟨?_, ?_, ?_, ?_⟩
    · rw [h1]
      push_cast
      ring
    · rw [h2]
      push_cast
      ring
    · rw [h3]
      push_cast
      ring
    · rw [h4]
      simp only [SetXY, schedule_doMoveTo, schedule_sleep, List.range_succ_eq_map,
        List.flatMap_cons, List.flatMap_map, List.append_assoc]
      congr 1
      simp only [Nat.cast_zero, zero_add, one_mul, List.singleton_append, List.cons_append,
        List.nil_append, List.cons.injEq, true_and]
      congr 1
      funext j
      simp only [Function.comp, Nat.succ_eq_add_one, Nat.cast_add, Nat.cast_one]
      have ex : v.x0 + dx + ((j : α) + 1) * dx = v.x0 + ((j : α) + 1 + 1) * dx := by ring
      have ey : v.y0 + dy + ((j : α) + 1) * dy = v.y0 + ((j : α) + 1 + 1) * dy := by ring
      rw [ex, ey]

end GlideLoop

theorem commits_schedule {β : Type} (t : List (Event β)) : commits (schedule t) = commits t := by
  induction t with
  | nil => rfl
  | cons e t ih =>
    cases e <;> simp_all [commits, schedule, List.filter_cons, List.filterMap_cons]

theorem commits_ticks {β : Type} (k : ℕ) (f g : ℕ → β) (ns : ℤ) :
    commits ((List.range k).flatMap (fun (j : ℕ) => [Event.sleep ns, Event.setPos (f j) (g j)])) =
      (List.range k).map (fun (j : ℕ) => (f j, g j)) := by
  induction k with
  | zero => rfl
  | succ k ih =>
    rw [List.range_succ, List.flatMap_append, List.map_append]
    have hc : ∀ a b : List (Event β), commits (a ++ b) = commits a ++ commits b := by
      intro a b
      simp [commits, List.filterMap_append]
    rw [hc, ih]
    simp [commits]

/-- The code's tick count `int(inDur / glideTick)` against the rounded-down
quotient: they agree when either is positive, and otherwise neither is. -/
theorem tdiv_glideTick (d : ℤ) :
    (⌊((d : ℤ) : ℚ) / (100000000 : ℚ)⌋ = d / 100000000) ∧
    (1 ≤ d / 100000000 → Int.tdiv d glideTick = d / 100000000) ∧
    (d / 100000000 ≤ 0 → ¬ (Int.tdiv d glideTick > 0)) := by
  refine ⟨?_, ?_, ?_⟩
  · have h := Rat.floor_intCast_div_natCast d 100000000
    simpa using h
  · intro h
    have hd : 0 ≤ d := by omega
    rw [glideTick, Int.tdiv_eq_ediv hd (by norm_num)]
  · intro h
    rcases le_or_lt 0 d with hd | hd
    · rw [glideTick, Int.tdiv_eq_ediv hd (by norm_num)]
      omega
    · have h1 : Int.tdiv d glideTick = -(Int.tdiv (-d) glideTick) := by
        rw [Int.neg_tdiv, neg_neg]
      have h2 : 0 ≤ Int.tdiv (-d) glideTick :=
        Int.tdiv_nonneg (by omega) (by norm_num [glideTick])
      omega

section GlideTheorems

variable {α : Type} [LinearOrderedField α] [FloorRing α]

/-- C8: for every start state, target `(x, y)` and duration `secs` (zero and
negative included), `Glide` ends with the assignment of the literal target:
the last event of its trace, and the last position committed, is `(x, y)`, and
the sprite is at `(x, y)` afterwards. -/
theorem Glide_final_position (oor : α → ℤ) (x y secs : α) (s : St α) :
    (Glide oor x y secs s).sp.x = x ∧ (Glide oor x y secs s).sp.y = y ∧
    (∃ t, (Glide oor x y secs s).trace = t ++ [Event.setPos x y]) ∧
    (commits (Glide oor x y secs s).trace).getLast? = some (x, y) := by
  have hG : ∃ st : St α, Glide oor x y secs s = doMoveTo x y st := ⟨_, rfl⟩
  obtain ⟨st, hst⟩ := hG
  rw [hst]
  have ht : ∃ t, (doMoveTo x y st).trace = t ++ [Event.setPos x y] := by
    cases h : st.sp.isPenDown
    · exact ⟨_, (doMoveTo_spec x y st).2.2 h⟩
    · refine ⟨st.trace ++ [Event.movePen st.sp x y], ?_⟩
      rw [(doMoveTo_spec x y st).2.1 h]
      simp
  refine ⟨?_, ?_, ht, ?_⟩
  · rw [(doMoveTo_spec x y st).1]
  · rw [(doMoveTo_spec x y st).1]
  · obtain ⟨t, ht⟩ := ht
    rw [ht]
    simp [commits, List.filterMap_append]

theorem Glide_unfold (oor : α → ℤ) (x y secs : α) (s : St α) :
    Glide oor x y secs s =
      if Int.tdiv (int64OfFloat oor (float64Mul secs 1000000000)) glideTick > 0 then
        SetXY x y (sleep
          (glideLoop
            ((x - s.sp.x) / ((Int.tdiv (int64OfFloat oor (float64Mul secs 1000000000)) glideTick : ℤ) : α))
            ((y - s.sp.y) / ((Int.tdiv (int64OfFloat oor (float64Mul secs 1000000000)) glideTick : ℤ) : α))
            (Int.tdiv (int64OfFloat oor (float64Mul secs 1000000000)) glideTick) 1
            { inDur := int64OfFloat oor (float64Mul secs 1000000000), x0 := s.sp.x, y0 := s.sp.y,
              st := s }).inDur
          (glideLoop
            ((x - s.sp.x) / ((Int.tdiv (int64OfFloat oor (float64Mul secs 1000000000)) glideTick : ℤ) : α))
            ((y - s.sp.y) / ((Int.tdiv (int64OfFloat oor (float64Mul secs 1000000000)) glideTick : ℤ) : α))
            (Int.tdiv (int64OfFloat oor (float64Mul secs 1000000000)) glideTick) 1
            { inDur := int64OfFloat oor (float64Mul secs 1000000000), x0 := s.sp.x, y0 := s.sp.y,
              st := s }).st)
      else SetXY x y (sleep (int64OfFloat oor (float64Mul secs 1000000000)) s) := by
  unfold Glide
  dsimp only
  split_ifs <;> rfl

/-- C9: with `n` the duration in whole nanoseconds (the `int64(secs * 1e9)` of
the code, for every result the implementation may give when the product does
not fit in 64 bits) divided by the tick of `1e8` ns and rounded down, `Glide`
from `(x0, y0)` performs, when `n ≥ 1`,
exactly `n - 1` intermediate commits, each right after a suspension of one
tick, the `i`-th at `(x0 + i*(x-x0)/n, y0 + i*(y-y0)/n)` for `i = 1 .. n-1`,
then suspends for the rest of the duration and commits `(x, y)`; when `n ≤ 0`
it performs no intermediate commit: it suspends for the whole duration and
commits `(x, y)`. -/
theorem Glide_intermediate_commits (oor : α → ℤ) (x y secs : α) (s : St α) :
    (1 ≤ glideTicks oor secs →
      schedule (Glide oor x y secs s).trace = schedule s.trace ++
        (List.range (glideTicks oor secs - 1).toNat).flatMap (fun (j : ℕ) =>
          [Event.sleep glideTick,
            Event.setPos (s.sp.x + ((j : α) + 1) * (x - s.sp.x) / ((glideTicks oor secs : ℤ) : α))
              (s.sp.y + ((j : α) + 1) * (y - s.sp.y) / ((glideTicks oor secs : ℤ) : α))]) ++
        [Event.sleep (int64OfFloat oor (float64Mul secs 1000000000) - (glideTicks oor secs - 1) * glideTick),
          Event.setPos x y] ∧
      commits (Glide oor x y secs s).trace = commits s.trace ++
        (List.range (glideTicks oor secs - 1).toNat).map (fun (j : ℕ) =>
          (s.sp.x + ((j : α) + 1) * (x - s.sp.x) / ((glideTicks oor secs : ℤ) : α),
            s.sp.y + ((j : α) + 1) * (y - s.sp.y) / ((glideTicks oor secs : ℤ) : α))) ++
        [(x, y)]) ∧
    (glideTicks oor secs ≤ 0 →
      schedule (Glide oor x y secs s).trace = schedule s.trace ++
        [Event.sleep (int64OfFloat oor (float64Mul secs 1000000000)), Event.setPos x y] ∧
      commits (Glide oor x y secs s).trace = commits s.trace ++ [(x, y)]) := by
  obtain ⟨hfloor, hpos, hnonpos⟩ := tdiv_glideTick (int64OfFloat oor (float64Mul secs 1000000000))
  have hticks : glideTicks oor secs = int64OfFloat oor (float64Mul secs 1000000000) / 100000000 := hfloor
  have hc : ∀ a b : List (Event α), commits (a ++ b) = commits a ++ commits b := by
    intro a b
    simp [commits, List.filterMap_append]
  constructor
  · intro h1
    have hn : Int.tdiv (int64OfFloat oor (float64Mul secs 1000000000)) glideTick = glideTicks oor secs := by
      rw [hticks]
      exact hpos (hticks ▸ h1)
    have hsched : schedule (Glide oor x y secs s).trace = schedule s.trace ++
        (List.range (glideTicks oor secs - 1).toNat).flatMap (fun (j : ℕ) =>
          [Event.sleep glideTick,
            Event.setPos (s.sp.x + ((j : α) + 1) * (x - s.sp.x) / ((glideTicks oor secs : ℤ) : α))
              (s.sp.y + ((j : α) + 1) * (y - s.sp.y) / ((glideTicks oor secs : ℤ) : α))]) ++
        [Event.sleep (int64OfFloat oor (float64Mul secs 1000000000) - (glideTicks oor secs - 1) * glideTick),
          Event.setPos x y] := by
      rw [Glide_unfold, hn, if_pos (by omega)]
      obtain ⟨e1, -, -, e4⟩ := glideLoop_spec
        ((x - s.sp.x) / ((glideTicks oor secs : ℤ) : α)) ((y - s.sp.y) / ((glideTicks oor secs : ℤ) : α))
        (glideTicks oor secs) (glideTicks oor secs - 1).toNat 1
        { inDur := int64OfFloat oor (float64Mul secs 1000000000), x0 := s.sp.x, y0 := s.sp.y, st := s } rfl
      have hk : (((glideTicks oor secs - 1).toNat : ℕ) : ℤ) = glideTicks oor secs - 1 :=
        Int.toNat_of_nonneg (by omega)
      rw [hk] at e1
      simp only [SetXY, schedule_doMoveTo, schedule_sleep, e1, e4, List.append_assoc,
        List.singleton_append, mul_div_assoc]
    refine ⟨hsched, ?_⟩
    rw [← commits_schedule, hsched, hc, hc, commits_schedule,
      commits_ticks (glideTicks oor secs - 1).toNat
        (fun (j : ℕ) => s.sp.x + ((j : α) + 1) * (x - s.sp.x) / ((glideTicks oor secs : ℤ) : α))
        (fun (j : ℕ) => s.sp.y + ((j : α) + 1) * (y - s.sp.y) / ((glideTicks oor secs : ℤ) : α))]
    rfl
  · intro h0
    have hn : ¬ (Int.tdiv (int64OfFloat oor (float64Mul secs 1000000000)) glideTick > 0) :=
      hnonpos (hticks ▸ h0)
    have hsched : schedule (Glide oor x y secs s).trace = schedule s.trace ++
        [Event.sleep (int64OfFloat oor (float64Mul secs 1000000000)), Event.setPos x y] := by
      rw [Glide_unfold, if_neg hn]
      simp only [SetXY, schedule_doMoveTo, schedule_sleep, List.append_assoc,
        List.singleton_append]
    refine ⟨hsched, ?_⟩
    rw [← commits_schedule, hsched, hc, commits_schedule]
    simp [commits]

end GlideTheorems
/-- The `float64` nearest to `0.3` is `5404319552844595 / 2^54`, a little below
`0.3`; its product with `1e9` is rounded up to exactly `3e8`, so the duration
is `300000000` ns and the tick count is `3`. -/
theorem glideTicks_sample (oor : ℚ → ℤ) :
    int64OfFloat oor (float64Mul (5404319552844595 / 2 ^ 54 : ℚ) 1000000000) = 300000000 ∧
    glideTicks oor (5404319552844595 / 2 ^ 54 : ℚ) = 3 := by
  have hm : float64Mul (5404319552844595 / 2 ^ 54 : ℚ) 1000000000 = 300000000 := by
    have h := round64_eq ((5404319552844595 / 2 ^ 54 : ℚ) * 1000000000) 28 5033164800000000
      (by norm_num [abs_of_pos]) (by norm_num [abs_of_pos]) (by norm_num)
      (by
        rw [show (5033164800000000 : ℤ) = 5033164799999999 + 1 by norm_num]
        apply roundHalfEven_of_gt <;> norm_num)
    rw [float64Mul, h]
    norm_num
  have ht : truncToInt (300000000 : ℚ) = 300000000 := by
    have e : (300000000 : ℚ) = ((300000000 : ℤ) : ℚ) := by norm_num
    rw [truncToInt, if_pos (by norm_num), e, Int.floor_intCast]
  have hi : int64OfFloat oor (float64Mul (5404319552844595 / 2 ^ 54 : ℚ) 1000000000) =
      300000000 := by
    rw [hm, int64OfFloat, ht, if_pos (by norm_num)]
  refine ⟨hi, ?_⟩
  rw [glideTicks, hi, (tdiv_glideTick 300000000).1]
  norm_num

/-- The product `1e10 * 1e9` is the `float64` value `1e19`, which does not fit
in 64 bits: the duration is whatever the implementation gives, and with the
smallest `int64` (the result on amd64) the tick count is negative. -/
theorem glideTicks_overflow :
    int64OfFloat (fun _ => -9223372036854775808) (float64Mul (10000000000 : ℚ) 1000000000) =
      -9223372036854775808 ∧
    glideTicks (fun _ => -9223372036854775808) (10000000000 : ℚ) ≤ 0 := by
  have hm : float64Mul (10000000000 : ℚ) 1000000000 = 10000000000000000000 := by
    have h := round64_eq ((10000000000 : ℚ) * 1000000000) 63 4882812500000000
      (by norm_num [abs_of_pos]) (by norm_num [abs_of_pos]) (by norm_num)
      (by apply roundHalfEven_of_lt <;> norm_num)
    rw [float64Mul, h]
    norm_num
  have ht : truncToInt (10000000000000000000 : ℚ) = 10000000000000000000 := by
    have e : (10000000000000000000 : ℚ) = ((10000000000000000000 : ℤ) : ℚ) := by norm_num
    rw [truncToInt, if_pos (by norm_num), e, Int.floor_intCast]
  have hi : int64OfFloat (fun _ => -9223372036854775808)
      (float64Mul (10000000000 : ℚ) 1000000000) = -9223372036854775808 := by
    rw [hm, int64OfFloat, ht, if_neg (by norm_num)]
  refine ⟨hi, ?_⟩
  rw [glideTicks, hi, (tdiv_glideTick (-9223372036854775808)).1]
  norm_num

/-- C9 on the sample sprite over `ℚ`.  A glide to `(10, 20)` from `(0, 0)` for
the `float64` nearest to `0.3` seconds has `n = 3`: two intermediate commits,
at one and two thirds of the way, and the final commit of the target.  A glide
for `1e10` seconds, whose nanoseconds do not fit in an `int64`, has `n ≤ 0` on
amd64 and commits the target only. -/
theorem Glide_intermediate_commits_witness :
    commits (Glide (fun _ => -9223372036854775808) (10 : ℚ) 20 (5404319552844595 / 2 ^ 54)
      { sp := sampleSprite, trace := [] }).trace =
      [(10 / 3, 20 / 3), (20 / 3, 40 / 3), (10, 20)] ∧
    commits (Glide (fun _ => -9223372036854775808) (10 : ℚ) 20 10000000000
      { sp := sampleSprite, trace := [] }).trace = [(10, 20)] := by
  have h := ((Glide_intermediate_commits (fun _ => -9223372036854775808) (10 : ℚ) 20
    (5404319552844595 / 2 ^ 54) { sp := sampleSprite, trace := [] }).1
    (by rw [(glideTicks_sample _).2]; norm_num)).2
  have h' := ((Glide_intermediate_commits (fun _ => -9223372036854775808) (10 : ℚ) 20
    10000000000 { sp := sampleSprite, trace := [] }).2 glideTicks_overflow.2).2
  have e : ((3 : ℤ) - 1).toNat = 2 := by decide
  constructor
  · rw [h, (glideTicks_sample _).2, e]
    norm_num [commits, sampleSprite, List.range_succ]
  · rw [h']
    rfl

/-! ### Speech overlay -/

section OverlayTheorems

variable {α : Type}

theorem doStopSay_spec (s : St α) :
    (doStopSay s).sp.say = none ∧
    (s.sp.say = none → (doStopSay s).trace = s.trace) ∧
    (∀ old, s.sp.say = some old → (doStopSay s).trace = s.trace ++ [Event.removeShape old]) := by
  unfold doStopSay
  cases h : s.sp.say with
  | none => simp [h]
  | some o => simp

/-- C11: for every sprite state and style, `sayOrThink` with the empty message
leaves the overlay reference absent, issuing exactly one `removeShape` for an
overlay that was present and nothing otherwise; with a non-empty message it
leaves the overlay present with exactly that message and style, issuing one
`addShape` when none was present and otherwise one `activateShape` for the
updated overlay (no second `addShape`).  `Say` and `Think` without a duration
are `sayOrThink` with their style, and `Say("hi")` followed by `Say("")` leaves
the overlay absent. -/
theorem sayOrThink_overlay (msg : String) (style : ℤ) (s : St α) :
    (msg = "" →
      (sayOrThink msg style s).sp.say = none ∧
      (s.sp.say = none → (sayOrThink msg style s).trace = s.trace) ∧
      (∀ old, s.sp.say = some old →
        (sayOrThink msg style s).trace = s.trace ++ [Event.removeShape old])) ∧
    (msg ≠ "" →
      (sayOrThink msg style s).sp.say = some { msg := msg, style := style } ∧
      (s.sp.say = none →
        (sayOrThink msg style s).trace =
          s.trace ++ [Event.addShape { msg := msg, style := style }]) ∧
      (∀ old, s.sp.say = some old →
        (sayOrThink msg style s).trace =
          s.trace ++ [Event.activateShape { msg := msg, style := style }])) ∧
    (∀ styleSay : ℤ, Say styleSay msg none s = sayOrThink msg styleSay s) ∧
    (∀ styleThink : ℤ, Think styleThink msg none s = sayOrThink msg styleThink s) ∧
    (∀ styleSay : ℤ, (Say styleSay "" none (Say styleSay "hi" none s)).sp.say = none) := by
  refine ⟨?_, ?_, fun _ => rfl, fun _ => rfl, ?_⟩
  · intro h
    subst h
    have e : sayOrThink "" style s = doStopSay s := by simp [sayOrThink]
    rw [e]
    exact doStopSay_spec s
  · intro h
    unfold sayOrThink
    rw [if_neg h]
    cases hs : s.sp.say with
    | none => simp
    | some o => simp
  · intro styleSay
    have e : ∀ t : St α, Say styleSay "" none t = doStopSay t := by
      intro t
      simp [Say, sayOrThink]
    rw [e]
    exact (doStopSay_spec _).1

end OverlayTheorems

/-- C11 on the sample sprite, which has no overlay: `Say("hi")` adds one
overlay carrying `"hi"`, and the following `Say("")` removes it once and leaves
the reference absent. -/
theorem sayOrThink_overlay_witness :
    (sayOrThink "hi" 1 { sp := sampleSprite, trace := [] }).sp.say =
      some { msg := "hi", style := 1 } ∧
    (sayOrThink "hi" 1 { sp := sampleSprite, trace := [] }).trace =
      [Event.addShape { msg := "hi", style := 1 }] ∧
    (sayOrThink "" 1 (sayOrThink "hi" 1 { sp := sampleSprite, trace := [] })).sp.say = none ∧
    (sayOrThink "" 1 (sayOrThink "hi" 1 { sp := sampleSprite, trace := [] })).trace =
      [Event.addShape { msg := "hi", style := 1 }, Event.removeShape { msg := "hi", style := 1 }] :=
  have h1 := (sayOrThink_overlay "hi" 1 ({ sp := sampleSprite, trace := [] } : St ℚ)).2.1
    (by decide)
  have h2 := (sayOrThink_overlay "" 1
    (sayOrThink "hi" 1 ({ sp := sampleSprite, trace := [] } : St ℚ))).1 rfl
  ⟨h1.1, h1.2.1 rfl, h2.1, by rw [h2.2.2 _ h1.1, h1.2.1 rfl]; rfl⟩

/-! ### Heading -/

section HeadingTheorems

variable {α : Type} [LinearOrderedField α] [FloorRing α]

theorem normalizeDirection_range (d : α) :
    -180 < normalizeDirection d ∧ normalizeDirection d ≤ 180 := by
  have h1 := Int.floor_le ((d + 180) / 360)
  have h2 := Int.lt_floor_add_one ((d + 180) / 360)
  rw [le_div_iff₀ (by norm_num : (0 : α) < 360)] at h1
  rw [div_lt_iff₀ (by norm_num : (0 : α) < 360)] at h2
  unfold normalizeDirection
  dsimp only
  split_ifs with h
  · constructor <;> norm_num
  · constructor
    · rcases lt_or_eq_of_le (show -180 ≤ d - 360 * ((⌊(d + 180) / 360⌋ : ℤ) : α) by linarith)
        with h' | h'
      · exact h'
      · exact absurd h'.symm h
    · linarith

theorem normalizeDirection_eq_add (d : α) :
    ∃ m : ℤ, normalizeDirection d = d + 360 * (m : α) := by
  unfold normalizeDirection
  dsimp only
  split_ifs with h
  · refine ⟨-⌊(d + 180) / 360⌋ + 1, ?_⟩
    push_cast
    linarith
  · refine ⟨-⌊(d + 180) / 360⌋, ?_⟩
    push_cast
    ring

theorem normalizeDirection_unique (d : α) (m : ℤ) (h1 : -180 < d + 360 * (m : α))
    (h2 : d + 360 * (m : α) ≤ 180) : normalizeDirection d = d + 360 * (m : α) := by
  obtain ⟨k, hk⟩ := normalizeDirection_eq_add d
  obtain ⟨r1, r2⟩ := normalizeDirection_range d
  rw [hk] at r1 r2 ⊢
  have hlt : ((k - m : ℤ) : α) < 1 := by
    push_cast
    linarith
  have hgt : (-1 : α) < ((k - m : ℤ) : α) := by
    push_cast
    linarith
  have h3 : k - m < 1 := by exact_mod_cast hlt
  have h4 : -1 < k - m := by exact_mod_cast hgt
  have : k = m := by omega
  rw [this]

theorem setDirection_spec (dir : α) (change : Bool) (p : Sprite α) :
    setDirection dir change p =
      { p with direction := normalizeDirection (if change = true then dir + p.direction else dir) } :=
  rfl

/-- C12: for every current heading `c`, `Turn(delta)` stores
`normalizeDirection (c + delta)`, and `TurnTo` with an absolute-degree
argument `v` (a `float64` or an `int`) stores `normalizeDirection v`, whatever
`c` is; every other field of the sprite is left as it was. -/
theorem Turn_TurnTo_heading (M : MathAtan α) (objectPos : Sprite α → Object α → α × α)
    (delta v : α) (n : ℤ) (p : Sprite α) :
    Turn delta p = { p with direction := normalizeDirection (p.direction + delta) } ∧
    TurnTo M objectPos (TurnTarget.float64 v) p =
      { p with direction := normalizeDirection v } ∧
    TurnTo M objectPos (TurnTarget.int n) p =
      { p with direction := normalizeDirection (n : α) } ∧
    (∀ c : α, (TurnTo M objectPos (TurnTarget.float64 v) { p with direction := c }).direction =
      normalizeDirection v) ∧
    (∀ c : α, (TurnTo M objectPos (TurnTarget.int n) { p with direction := c }).direction =
      normalizeDirection (n : α)) := by
  refine ⟨?_, rfl, rfl, fun _ => rfl, fun _ => rfl⟩
  rw [Turn, setDirection_spec, if_pos rfl, add_comm]

end HeadingTheorems

/-- C12 on the sample sprite over `ℚ`, whose heading is `90`: `Turn(100)`
stores `-170`, and `TurnTo(45)` stores `45`. -/
theorem Turn_TurnTo_heading_witness :
    (Turn (100 : ℚ) sampleSprite).direction = -170 ∧
    ∀ (M : MathAtan ℚ) (objectPos : Sprite ℚ → Object ℚ → ℚ × ℚ),
      (TurnTo M objectPos (TurnTarget.int 45) sampleSprite).direction = 45 := by
  constructor
  · rw [(Turn_TurnTo_heading ({ Atan2 := fun _ _ => 0, Pi := 1 } : MathAtan ℚ)
      (fun _ _ => (0, 0)) (100 : ℚ) 0 45 sampleSprite).1]
    show normalizeDirection ((90 : ℚ) + 100) = -170
    have e := normalizeDirection_unique ((90 : ℚ) + 100) (-1) (by norm_num) (by norm_num)
    rw [e]
    norm_num
  · intro M objectPos
    rw [(Turn_TurnTo_heading M objectPos (100 : ℚ) 0 45 sampleSprite).2.2.1]
    show normalizeDirection (((45 : ℤ) : ℚ)) = 45
    have e := normalizeDirection_of_mem (((45 : ℤ) : ℚ)) (by norm_num) (by norm_num)
    rw [e]
    norm_num

/-! ### Pen width, shade reflection and mix ratio -/

section PenWidthTheorems

variable {α : Type} [LinearOrderedField α]

/-- C17 (the code as it is): `SetPenSize(size)` does not store `size`; like
`ChangePenSize` it calls `setPenWidth` with `change = true` and stores `size`
plus the previous pen width, so the two operations called with the same
argument leave the same pen width, and `SetPenSize` misses `size` whenever the
previous width is not zero. -/
theorem SetPenSize_adds (size : α) (p : Sprite α) :
    (SetPenSize size p).penWidth = size + p.penWidth ∧
    (ChangePenSize size p).penWidth = size + p.penWidth ∧
    SetPenSize size p = ChangePenSize size p ∧
    (p.penWidth ≠ 0 → (SetPenSize size p).penWidth ≠ size) := by
  refine ⟨rfl, rfl, rfl, ?_⟩
  intro h
  show size + p.penWidth ≠ size
  intro e
  exact h (by linarith)

/-- The pen colour stored by `doUpdatePenColor` depends on the sprite only
through the hue, the folded shade and the alpha. -/
theorem doUpdatePenColor_congr (c : Clrutil α) (p q : Sprite α) (hh : p.penHue = q.penHue)
    (hs : (if p.penShade > 100 then 200 - p.penShade else p.penShade) =
      (if q.penShade > 100 then 200 - q.penShade else q.penShade))
    (hA : p.penColor.A = q.penColor.A) :
    (doUpdatePenColor c p).penColor = (doUpdatePenColor c q).penColor := by
  simp only [doUpdatePenColor, hh, hs, hA]

theorem doUpdatePenColor_ratio (c : Clrutil α) (p : Sprite α) :
    ((doUpdatePenColor c p).penColor.R, (doUpdatePenColor c p).penColor.G,
        (doUpdatePenColor c p).penColor.B) =
      if (if p.penShade > 100 then 200 - p.penShade else p.penShade) < 50 then
        c.MixRGB 0 0 0 (c.HSV2RGB ((p.penHue * 180) / 100) 1 1).1
          (c.HSV2RGB ((p.penHue * 180) / 100) 1 1).2.1
          (c.HSV2RGB ((p.penHue * 180) / 100) 1 1).2.2 (penMixRatio p.penShade)
      else
        c.MixRGB (c.HSV2RGB ((p.penHue * 180) / 100) 1 1).1
          (c.HSV2RGB ((p.penHue * 180) / 100) 1 1).2.1
          (c.HSV2RGB ((p.penHue * 180) / 100) 1 1).2.2 255 255 255 (penMixRatio p.penShade) := by
  simp only [doUpdatePenColor, penMixRatio]
  split_ifs <;> rfl

/-- C19: for every stored shade in `[0, 200)` the ratio that
`doUpdatePenColor` passes to `MixRGB` (whatever the colour functions are) lies
in `[0, 1]`: in `[1/6, 1)` on the branch toward black (folded shade below
`50`) and in `[0, 5/6]` on the branch toward white. -/
theorem penMixRatio_in_range (shade : α) (h0 : 0 ≤ shade) (h1 : shade < 200) :
    (∀ (c : Clrutil α) (p : Sprite α), p.penShade = shade →
      ((doUpdatePenColor c p).penColor.R, (doUpdatePenColor c p).penColor.G,
          (doUpdatePenColor c p).penColor.B) =
        if (if shade > 100 then 200 - shade else shade) < 50 then
          c.MixRGB 0 0 0 (c.HSV2RGB ((p.penHue * 180) / 100) 1 1).1
            (c.HSV2RGB ((p.penHue * 180) / 100) 1 1).2.1
            (c.HSV2RGB ((p.penHue * 180) / 100) 1 1).2.2 (penMixRatio shade)
        else
          c.MixRGB (c.HSV2RGB ((p.penHue * 180) / 100) 1 1).1
            (c.HSV2RGB ((p.penHue * 180) / 100) 1 1).2.1
            (c.HSV2RGB ((p.penHue * 180) / 100) 1 1).2.2 255 255 255 (penMixRatio shade)) ∧
    ((if shade > 100 then 200 - shade else shade) < 50 →
      1 / 6 ≤ penMixRatio shade ∧ penMixRatio shade < 1) ∧
    (50 ≤ (if shade > 100 then 200 - shade else shade) →
      0 ≤ penMixRatio shade ∧ penMixRatio shade ≤ 5 / 6) ∧
    0 ≤ penMixRatio shade ∧ penMixRatio shade ≤ 1 := by
  have hfold : 0 ≤ (if shade > 100 then 200 - shade else shade) ∧
      (if shade > 100 then 200 - shade else shade) ≤ 100 := by
    split_ifs with h
    · constructor <;> linarith
    · exact ⟨h0, not_lt.mp h⟩
  have hA : (if shade > 100 then 200 - shade else shade) < 50 →
      1 / 6 ≤ penMixRatio shade ∧ penMixRatio shade < 1 := by
    intro h
    simp only [penMixRatio, if_pos h]
    constructor
    · rw [le_div_iff₀ (by norm_num)]
      linarith [hfold.1]
    · rw [div_lt_one (by norm_num)]
      linarith
  have hB : 50 ≤ (if shade > 100 then 200 - shade else shade) →
      0 ≤ penMixRatio shade ∧ penMixRatio shade ≤ 5 / 6 := by
    intro h
    simp only [penMixRatio, if_neg (not_lt.mpr h)]
    constructor
    · apply div_nonneg <;> linarith
    · rw [div_le_iff₀ (by norm_num)]
      linarith [hfold.2]
  refine ⟨?_, hA, hB, ?_, ?_⟩
  · intro c p hp
    subst hp
    exact doUpdatePenColor_ratio c p
  · rcases lt_or_le (if shade > 100 then 200 - shade else shade) 50 with h | h
    · linarith [(hA h).1]
    · exact (hB h).1
  · rcases lt_or_le (if shade > 100 then 200 - shade else shade) 50 with h | h
    · exact (hA h).2.le
    · linarith [(hB h).2]

end PenWidthTheorems

/-- C19 at the stored shade `170` over `ℚ`: the folded shade is `30`, the
branch is the one toward black, and the ratio lies in `[1/6, 1)`. -/
theorem penMixRatio_in_range_witness :
    (0 : ℚ) ≤ 170 ∧ (170 : ℚ) < 200 ∧
    (1 : ℚ) / 6 ≤ penMixRatio (170 : ℚ) ∧ penMixRatio (170 : ℚ) < 1 :=
  ⟨by norm_num, by norm_num,
    (penMixRatio_in_range (170 : ℚ) (by norm_num) (by norm_num)).2.1 (by norm_num)⟩

section ShadeReflection

variable {α : Type} [LinearOrderedField α] [FloorRing α]

theorem SetPenShade_of_mem (c : Clrutil α) (s : α) (p : Sprite α) (h0 : 0 ≤ s) (h1 : s < 200) :
    SetPenShade c s p = doUpdatePenColor c { p with penShade := s } := by
  have hm := mathMod_of_mem s h0 h1
  simp only [SetPenShade, setPenShade, Bool.false_eq_true, if_false, hm, if_neg (not_lt.mpr h0)]

/-- C14: for every hue and every shade `s` with `0 < s < 200`, `SetPenShade(s)`
and `SetPenShade(200 - s)` applied to the same sprite store the same pen
colour, all four channels. -/
theorem SetPenShade_reflected (c : Clrutil α) (s : α) (p : Sprite α) (h0 : 0 < s)
    (h1 : s < 200) :
    (SetPenShade c s p).penColor = (SetPenShade c (200 - s) p).penColor := by
  rw [SetPenShade_of_mem c s p h0.le h1,
    SetPenShade_of_mem c (200 - s) p (by linarith) (by linarith)]
  apply doUpdatePenColor_congr
  · rfl
  · show (if s > 100 then 200 - s else s) =
      (if 200 - s > 100 then 200 - (200 - s) else 200 - s)
    rcases lt_trichotomy s 100 with h | h | h
    · rw [if_neg (by simp only [gt_iff_lt, not_lt]; exact h.le), if_pos (by linarith)]
      ring
    · subst h
      norm_num
    · rw [if_pos h, if_neg (by simp only [gt_iff_lt, not_lt]; linarith)]
  · rfl

end ShadeReflection

/-- C14 on the sample sprite over `ℚ` with the colour functions of the spec:
the shades `30` and `200 - 30` give the same pen colour. -/
theorem SetPenShade_reflected_witness :
    (0 : ℚ) < 30 ∧ (30 : ℚ) < 200 ∧
    (SetPenShade specClrutil (30 : ℚ) sampleSprite).penColor =
      (SetPenShade specClrutil (200 - 30 : ℚ) sampleSprite).penColor :=
  ⟨by norm_num, by norm_num,
    SetPenShade_reflected specClrutil (30 : ℚ) sampleSprite (by norm_num) (by norm_num)⟩

/-! ### Bouncing away from the edge -/

/-- The value of `checkTouchingDirection` by the position of the heading. -/
theorem checkTouchingDirection_cases {α : Type} [LinearOrderedField α] (d : α) :
    (d = 0 → checkTouchingDirection d = 2) ∧
    (0 < d → d < 90 → checkTouchingDirection d = 6) ∧
    (d = 90 → checkTouchingDirection d = 4) ∧
    (90 < d → d ≠ 180 → checkTouchingDirection d = 12) ∧
    (d = 180 → checkTouchingDirection d = 8) ∧
    (-90 < d → d < 0 → checkTouchingDirection d = 3) ∧
    (d = -90 → checkTouchingDirection d = 1) ∧
    (d < -90 → checkTouchingDirection d = 9) := by
  refine ⟨?_, ?_, ?_, ?_, ?_, ?_, ?_, ?_⟩
  · intro h
    subst h
    simp [checkTouchingDirection, touchingScreenTop]
  · intro h1 h2
    simp [checkTouchingDirection, h1, h2, lor_right_top]
  · intro h
    subst h
    norm_num [checkTouchingDirection, touchingScreenRight]
  · intro h1 h2
    have h0 : (0 : α) < d := lt_trans (by norm_num) h1
    simp [checkTouchingDirection, h0, not_lt.mpr h1.le, h1, h2, lor_right_bottom]
  · intro h
    subst h
    norm_num [checkTouchingDirection, touchingScreenBottom]
  · intro h1 h2
    simp [checkTouchingDirection, not_lt.mpr h2.le, h1, h2, lor_left_top]
  · intro h
    subst h
    norm_num [checkTouchingDirection, touchingScreenLeft]
  · intro h2
    have h0 : d < 0 := lt_trans h2 (by norm_num)
    simp [checkTouchingDirection, not_lt.mpr h0.le, h0, not_lt.mpr h2.le, h2, lor_left_bottom]

section BounceAway

variable {α : Type} [LinearOrderedField α] [FloorRing α] {G : Type}

/-- The heading stored by a bounce, by the edge bit reported. -/
theorem BounceOffEdge_direction_of_bit (b : Backend α G) (p : Sprite α) :
    (checkTouchingScreen b p (checkTouchingDirection p.direction) = 1 ∨
      checkTouchingScreen b p (checkTouchingDirection p.direction) = 4 →
      (BounceOffEdge b p).direction = normalizeDirection (-p.direction)) ∧
    (checkTouchingScreen b p (checkTouchingDirection p.direction) = 2 ∨
      checkTouchingScreen b p (checkTouchingDirection p.direction) = 8 →
      (BounceOffEdge b p).direction = normalizeDirection (180 - p.direction)) := by
  rw [BounceOffEdge_direction]
  constructor
  · rintro (h | h)
    · rw [h, if_neg (by decide), if_pos (by decide)]
    · rw [h, if_neg (by decide), if_pos (by decide)]
  · rintro (h | h)
    · rw [h, if_neg (by decide), if_neg (by decide)]
    · rw [h, if_neg (by decide), if_neg (by decide)]

theorem normalizeDirection_neg (d : α) (hlo : -180 < d) (hhi : d < 180) :
    normalizeDirection (-d) = -d :=
  normalizeDirection_of_mem (-d) (by linarith) (by linarith)

theorem normalizeDirection_180_sub (d : α) :
    (0 ≤ d → d ≤ 180 → normalizeDirection (180 - d) = 180 - d) ∧
    (-180 < d → d < 0 → normalizeDirection (180 - d) = -180 - d) := by
  constructor
  · intro h1 h2
    exact normalizeDirection_of_mem _ (by linarith) (by linarith)
  · intro h1 h2
    have e := normalizeDirection_unique (180 - d) (-1) (by push_cast; linarith)
      (by push_cast; linarith)
    rw [e]
    push_cast
    ring

/-- C16: a bounce turns the sprite away from the edge it bounced off.  For
every heading `d` in `(-180, 180]`, when the edge test restricted to
`checkTouchingDirection d` reports an edge `e`, the heading `d'` stored by
`BounceOffEdge` has a mask `checkTouchingDirection d'` that does not contain
`e`. -/
theorem BounceOffEdge_turns_away (b : Backend α G) (p : Sprite α)
    (hlo : -180 < p.direction) (hhi : p.direction ≤ 180)
    (ht : checkTouchingScreen b p (checkTouchingDirection p.direction) ≠ 0) :
    Int.land (checkTouchingDirection (BounceOffEdge b p).direction)
      (checkTouchingScreen b p (checkTouchingDirection p.direction)) = 0 := by
  obtain ⟨hX, hY⟩ := BounceOffEdge_direction_of_bit b p
  rcases checkTouchingScreen_values b p (checkTouchingDirection p.direction) with
    h0 | ⟨hbits, hland⟩
  · exact absurd h0 ht
  generalize checkTouchingScreen b p (checkTouchingDirection p.direction) = t at *
  obtain ⟨c0, c1, c2, c3, c4, c5, c6, c7⟩ := checkTouchingDirection_cases p.direction
  have hsub := normalizeDirection_180_sub p.direction
  rcases lt_trichotomy p.direction 0 with hneg | hz | hpos
  · have hnegd := normalizeDirection_neg p.direction hlo (by linarith)
    rcases lt_trichotomy p.direction (-90) with h | h | h
    · rw [c7 h] at hland
      rcases hbits with rfl | rfl | rfl | rfl
      · rw [hX (Or.inl rfl), hnegd,
          (checkTouchingDirection_cases (-p.direction)).2.2.2.1 (by linarith) (by linarith)]
        decide
      · exact absurd (by decide) hland
      · exact absurd (by decide) hland
      · rw [hY (Or.inr rfl), hsub.2 hlo hneg,
          (checkTouchingDirection_cases (-180 - p.direction)).2.2.2.2.2.1 (by linarith)
            (by linarith)]
        decide
    · rw [c6 h] at hland
      rcases hbits with rfl | rfl | rfl | rfl
      · rw [hX (Or.inl rfl), hnegd,
          (checkTouchingDirection_cases (-p.direction)).2.2.1 (by linarith)]
        decide
      · exact absurd (by decide) hland
      · exact absurd (by decide) hland
      · exact absurd (by decide) hland
    · rw [c5 h hneg] at hland
      rcases hbits with rfl | rfl | rfl | rfl
      · rw [hX (Or.inl rfl), hnegd,
          (checkTouchingDirection_cases (-p.direction)).2.1 (by linarith) (by linarith)]
        decide
      · rw [hY (Or.inl rfl), hsub.2 hlo hneg,
          (checkTouchingDirection_cases (-180 - p.direction)).2.2.2.2.2.2.2 (by linarith)]
        decide
      · exact absurd (by decide) hland
      · exact absurd (by decide) hland
  · rw [c0 hz] at hland
    rcases hbits with rfl | rfl | rfl | rfl
    · exact absurd (by decide) hland
    · rw [hY (Or.inl rfl), hsub.1 hz.ge hhi, hz, sub_zero,
        (checkTouchingDirection_cases (180 : α)).2.2.2.2.1 rfl]
      decide
    · exact absurd (by decide) hland
    · exact absurd (by decide) hland
  · rcases lt_trichotomy p.direction 90 with h | h | h
    · have hnegd := normalizeDirection_neg p.direction hlo (by linarith)
      rw [c1 hpos h] at hland
      rcases hbits with rfl | rfl | rfl | rfl
      · exact absurd (by decide) hland
      · rw [hY (Or.inl rfl), hsub.1 hpos.le hhi,
          (checkTouchingDirection_cases (180 - p.direction)).2.2.2.1 (by linarith)
            (by intro e; linarith)]
        decide
      · rw [hX (Or.inr rfl), hnegd,
          (checkTouchingDirection_cases (-p.direction)).2.2.2.2.2.1 (by linarith) (by linarith)]
        decide
      · exact absurd (by decide) hland
    · have hnegd := normalizeDirection_neg p.direction hlo (by linarith)
      rw [c2 h] at hland
      rcases hbits with rfl | rfl | rfl | rfl
      · exact absurd (by decide) hland
      · exact absurd (by decide) hland
      · rw [hX (Or.inr rfl), hnegd,
          (checkTouchingDirection_cases (-p.direction)).2.2.2.2.2.2.1 (by linarith)]
        decide
      · exact absurd (by decide) hland
    · rcases eq_or_lt_of_le hhi with h180 | h180
      · rw [c4 h180] at hland
        rcases hbits with rfl | rfl | rfl | rfl
        · exact absurd (by decide) hland
        · exact absurd (by decide) hland
        · exact absurd (by decide) hland
        · rw [hY (Or.inr rfl), hsub.1 hpos.le hhi, h180, sub_self,
            (checkTouchingDirection_cases (0 : α)).1 rfl]
          decide
      · have hnegd := normalizeDirection_neg p.direction hlo h180
        rw [c3 h (ne_of_lt h180)] at hland
        rcases hbits with rfl | rfl | rfl | rfl
        · exact absurd (by decide) hland
        · exact absurd (by decide) hland
        · rw [hX (Or.inr rfl), hnegd,
            (checkTouchingDirection_cases (-p.direction)).2.2.2.2.2.2.2 (by linarith)]
          decide
        · rw [hY (Or.inr rfl), hsub.1 hpos.le hhi,
            (checkTouchingDirection_cases (180 - p.direction)).2.1 (by linarith) (by linarith)]
          decide

end BounceAway

/-- C16 on concrete sprites over `ℚ`: heading `45` on the top edge is turned to
a heading whose mask has no top bit. -/
theorem BounceOffEdge_turns_away_witness :
    (-180 : ℚ) < 45 ∧ (45 : ℚ) ≤ 180 ∧
    checkTouchingScreen topRightBackend { sampleSprite with direction := 45 }
      (checkTouchingDirection (45 : ℚ)) = touchingScreenTop ∧
    Int.land
      (checkTouchingDirection
        (BounceOffEdge topRightBackend { sampleSprite with direction := 45 }).direction)
      touchingScreenTop = 0 := by
  have hw : checkTouchingDirection (45 : ℚ) = 6 :=
    (checkTouchingDirection_cases (45 : ℚ)).2.1 (by norm_num) (by norm_num)
  have ht : checkTouchingScreen topRightBackend { sampleSprite with direction := 45 }
      (checkTouchingDirection (45 : ℚ)) = touchingScreenTop := by
    rw [hw, checkTouchingScreen_some topRightBackend _ 6 () rfl]
    have h1 : Int.land 6 touchingScreenLeft = 0 := by decide
    have h2 : Int.land 6 touchingScreenTop ≠ 0 := by decide
    simp [edgeHit, h1, h2, topRightBackend]
  have h := BounceOffEdge_turns_away topRightBackend { sampleSprite with direction := 45 }
    (by norm_num) (by norm_num) (by rw [ht]; decide)
  rw [ht] at h
  exact ⟨by norm_num, by norm_num, ht, h⟩

/-! ### The heading invariant -/

theorem doMoveTo_direction {β : Type} (x y : β) (s : St β) :
    (doMoveTo x y s).sp.direction = s.sp.direction := by
  rw [(doMoveTo_spec x y s).1]

theorem doStopSay_direction {β : Type} (s : St β) :
    (doStopSay s).sp.direction = s.sp.direction := by
  unfold doStopSay
  cases s.sp.say <;> rfl

theorem sayOrThink_direction {β : Type} (msg : String) (style : ℤ) (s : St β) :
    (sayOrThink msg style s).sp.direction = s.sp.direction := by
  unfold sayOrThink
  split_ifs
  · exact doStopSay_direction s
  · cases s.sp.say <;> rfl

theorem Say_direction {β : Type} (style : ℤ) (msg : String) (secs : Option β) (s : St β) :
    (Say style msg secs s).sp.direction = s.sp.direction ∧
    (Think style msg secs s).sp.direction = s.sp.direction := by
  cases secs with
  | none => exact ⟨sayOrThink_direction msg style s, sayOrThink_direction msg style s⟩
  | some t =>
    constructor
    · show (doStopSay (Wait t (sayOrThink msg style s))).sp.direction = _
      rw [doStopSay_direction]
      exact sayOrThink_direction msg style s
    · show (doStopSay (Wait t (sayOrThink msg style s))).sp.direction = _
      rw [doStopSay_direction]
      exact sayOrThink_direction msg style s

theorem glideLoop_direction {α : Type} [LinearOrderedField α] (dx dy : α) (n : ℤ) (k : ℕ) :
    ∀ (i : ℤ) (v : GlideVars α), (n - i).toNat = k →
      (glideLoop dx dy n i v).st.sp.direction = v.st.sp.direction := by
  induction k with
  | zero =>
    intro i v h
    have hi : ¬ i < n := by omega
    rw [glideLoop, if_neg hi]
  | succ k ih =>
    intro i v h
    have hi : i < n := by omega
    rw [glideLoop, if_pos hi, ih (i + 1) _ (by omega)]
    exact doMoveTo_direction _ _ _

section InvariantTheorems

variable {α : Type} [LinearOrderedField α] [FloorRing α] {G : Type}

theorem Glide_direction (oor : α → ℤ) (x y secs : α) (s : St α) :
    (Glide oor x y secs s).sp.direction = s.sp.direction := by
  rw [Glide_unfold]
  split_ifs
  · rw [SetXY, doMoveTo_direction]
    exact glideLoop_direction _ _ _ _ 1 _ rfl
  · rw [SetXY, doMoveTo_direction]
    rfl

theorem normalizeDirection_examples :
    normalizeDirection (180 : α) = 180 ∧ normalizeDirection (-180 : α) = 180 ∧
    ∀ d : α, normalizeDirection (d + 360) = normalizeDirection d := by
  refine ⟨normalizeDirection_of_mem _ (by norm_num) (by norm_num), ?_, ?_⟩
  · have e := normalizeDirection_unique (-180 : α) 1 (by norm_num) (by norm_num)
    rw [e]
    norm_num
  · intro d
    obtain ⟨m, hm⟩ := normalizeDirection_eq_add d
    obtain ⟨r1, r2⟩ := normalizeDirection_range d
    have e := normalizeDirection_unique (d + 360) (m - 1)
      (by push_cast; rw [hm] at r1; linarith) (by push_cast; rw [hm] at r2; linarith)
    rw [e, hm]
    push_cast
    ring

/-- C13: the heading invariant is preserved by every public operation.  If the
direction of the sprite lies in `(-180, 180]` and an operation of `sprite.go`
returns, the direction lies in `(-180, 180]` afterwards; `normalizeDirection`
maps every input into `(-180, 180]`, sends `180` and `-180` to `180`, and has
period `360`. -/
theorem heading_invariant (E : Env α G) (op : Op α) (s s' : St α)
    (hlo : -180 < s.sp.direction) (hhi : s.sp.direction ≤ 180)
    (hrun : run E op s = Except.ok s') :
    (-180 < s'.sp.direction ∧ s'.sp.direction ≤ 180) ∧
    (∀ d : α, -180 < normalizeDirection d ∧ normalizeDirection d ≤ 180) ∧
    normalizeDirection (180 : α) = 180 ∧ normalizeDirection (-180 : α) = 180 ∧
    (∀ d : α, normalizeDirection (d + 360) = normalizeDirection d) := by
  refine ⟨?_, normalizeDirection_range, normalizeDirection_examples.1,
    normalizeDirection_examples.2.1, normalizeDirection_examples.2.2⟩
  have keep : s'.sp.direction = s.sp.direction → (-180 < s'.sp.direction ∧ s'.sp.direction ≤ 180) := by
    intro e
    rw [e]
    exact ⟨hlo, hhi⟩
  cases op <;> simp only [run, Except.ok.injEq] at hrun
  all_goals first
    | exact absurd hrun (by simp)
    | (subst hrun; exact keep rfl)
    | skip
  case Say msg secs =>
    subst hrun
    exact keep (Say_direction _ msg secs s).1
  case Think msg secs =>
    subst hrun
    exact keep (Say_direction _ msg secs s).2
  case Step step =>
    subst hrun
    exact keep (doMoveTo_direction _ _ s)
  case Glide x y secs =>
    subst hrun
    exact keep (Glide_direction _ x y secs s)
  case SetXY x y =>
    subst hrun
    exact keep (doMoveTo_direction _ _ s)
  case SetXpos x =>
    subst hrun
    exact keep (doMoveTo_direction _ _ s)
  case ChangeXpos dx =>
    subst hrun
    exact keep (doMoveTo_direction _ _ s)
  case SetYpos y =>
    subst hrun
    exact keep (doMoveTo_direction _ _ s)
  case ChangeYpos dy =>
    subst hrun
    exact keep (doMoveTo_direction _ _ s)
  case Turn delta =>
    subst hrun
    exact normalizeDirection_range _
  case TurnTo obj =>
    subst hrun
    cases obj <;> exact normalizeDirection_range _
  case Touching obj =>
    cases hT : Touching E.backend s.sp obj with
    | error e =>
      rw [hT] at hrun
      exact absurd hrun (by simp)
    | ok v =>
      rw [hT] at hrun
      simp only [Except.ok.injEq] at hrun
      subst hrun
      exact keep rfl
  case BounceOffEdge =>
    subst hrun
    show -180 < (BounceOffEdge E.backend s.sp).direction ∧
      (BounceOffEdge E.backend s.sp).direction ≤ 180
    rw [BounceOffEdge_direction]
    split_ifs
    · exact ⟨hlo, hhi⟩
    · exact normalizeDirection_range _
    · exact normalizeDirection_range _

end InvariantTheorems

/-- C13 on the sample sprite over `ℚ`, whose heading `90` lies in
`(-180, 180]`: whatever the collaborators are, `Turn(100)` returns and leaves
the heading in `(-180, 180]`. -/
theorem heading_invariant_witness :
    (-180 : ℚ) < sampleSprite.direction ∧ sampleSprite.direction ≤ 180 ∧
    ∀ E : Env ℚ Unit,
      run E (Op.Turn 100) { sp := sampleSprite, trace := [] } =
        Except.ok { sp := Turn 100 sampleSprite, trace := [] } ∧
      -180 < (Turn (100 : ℚ) sampleSprite).direction ∧
      (Turn (100 : ℚ) sampleSprite).direction ≤ 180 :=
  ⟨by norm_num [sampleSprite], by norm_num [sampleSprite], fun E =>
    ⟨rfl, (heading_invariant E (Op.Turn 100) { sp := sampleSprite, trace := [] }
      { sp := Turn 100 sampleSprite, trace := [] } (by norm_num [sampleSprite])
      (by norm_num [sampleSprite]) rfl).1⟩⟩

/-! ### Step and TurnTo over the reals -/

/-- C15: with `toRadian` the standard conversion and `math.Sincos` the real
sine and cosine, `Step(s)` from `(x, y)` at heading `d` moves the sprite to
`(x + s*sin(d°), y + s*cos(d°))`: at heading `0` only `y` changes, by `+s`; at
heading `90` only `x` changes, by `+s`; and the squared distance moved is
`s^2`. -/
theorem Step_heading_convention (T : Trig ℝ)
    (hrad : ∀ d, T.toRadian d = specToRadian Real.pi d)
    (hsc : ∀ r, T.Sincos r = (Real.sin r, Real.cos r)) (step : ℝ) (s : St ℝ) :
    (Step T step s).sp.x = s.sp.x + step * Real.sin (s.sp.direction * Real.pi / 180) ∧
    (Step T step s).sp.y = s.sp.y + step * Real.cos (s.sp.direction * Real.pi / 180) ∧
    (s.sp.direction = 0 →
      (Step T step s).sp.x = s.sp.x ∧ (Step T step s).sp.y = s.sp.y + step) ∧
    (s.sp.direction = 90 →
      (Step T step s).sp.x = s.sp.x + step ∧ (Step T step s).sp.y = s.sp.y) ∧
    ((Step T step s).sp.x - s.sp.x) ^ 2 + ((Step T step s).sp.y - s.sp.y) ^ 2 = step ^ 2 := by
  have hx : (Step T step s).sp.x =
      s.sp.x + step * Real.sin (s.sp.direction * Real.pi / 180) := by
    simp only [Step, (doMoveTo_spec _ _ s).1, hrad, hsc, specToRadian]
  have hy : (Step T step s).sp.y =
      s.sp.y + step * Real.cos (s.sp.direction * Real.pi / 180) := by
    simp only [Step, (doMoveTo_spec _ _ s).1, hrad, hsc, specToRadian]
  refine ⟨hx, hy, ?_, ?_, ?_⟩
  · intro h
    rw [hx, hy, h]
    simp
  · intro h
    rw [hx, hy, h]
    have e : (90 : ℝ) * Real.pi / 180 = Real.pi / 2 := by ring
    rw [e]
    simp
  · rw [hx, hy]
    have := Real.sin_sq_add_cos_sq (s.sp.direction * Real.pi / 180)
    nlinarith [this]

/-- C15 on a sprite at the origin over `ℝ`: five steps at heading `90` end at
`(5, 0)`, and five steps at heading `0` end at `(0, 5)`. -/
theorem Step_heading_convention_witness :
    (Step ({ toRadian := specToRadian Real.pi,
             Sincos := fun r => (Real.sin r, Real.cos r) } : Trig ℝ) 5
        { sp := originSprite ℝ 90, trace := [] }).sp.x = 0 + 5 ∧
    (Step ({ toRadian := specToRadian Real.pi,
             Sincos := fun r => (Real.sin r, Real.cos r) } : Trig ℝ) 5
        { sp := originSprite ℝ 90, trace := [] }).sp.y = 0 ∧
    (Step ({ toRadian := specToRadian Real.pi,
             Sincos := fun r => (Real.sin r, Real.cos r) } : Trig ℝ) 5
        { sp := originSprite ℝ 0, trace := [] }).sp.x = 0 ∧
    (Step ({ toRadian := specToRadian Real.pi,
             Sincos := fun r => (Real.sin r, Real.cos r) } : Trig ℝ) 5
        { sp := originSprite ℝ 0, trace := [] }).sp.y = 0 + 5 :=
  have h90 := (Step_heading_convention
    ({ toRadian := specToRadian Real.pi, Sincos := fun r => (Real.sin r, Real.cos r) } : Trig ℝ)
    (fun _ => rfl) (fun _ => rfl) 5 { sp := originSprite ℝ 90, trace := [] }).2.2.2.1 rfl
  have h0 := (Step_heading_convention
    ({ toRadian := specToRadian Real.pi, Sincos := fun r => (Real.sin r, Real.cos r) } : Trig ℝ)
    (fun _ => rfl) (fun _ => rfl) 5 { sp := originSprite ℝ 0, trace := [] }).2.2.1 rfl
  ⟨h90.1, h90.2, h0.1, h0.2⟩

theorem TurnTo_object_direction {α : Type} [LinearOrderedField α] [FloorRing α]
    (M : MathAtan α) (objectPos : Sprite α → Object α → α × α) (obj : Object α)
    (p : Sprite α) :
    TurnTo M objectPos (TurnTarget.object obj) p =
      { p with direction := (normalizeDirection
          (90 - M.Atan2 ((objectPos p obj).2 - p.y) ((objectPos p obj).1 - p.x) * 180 / M.Pi)) } :=
  rfl

/-- Sine and cosine of the heading that `TurnTo` stores for the offset
`(dx, dy)`: the cosine and the sine of the angle of the offset. -/
theorem sincos_of_turned_heading (dx dy : ℝ) :
    Real.sin (normalizeDirection (90 - Complex.arg ⟨dx, dy⟩ * 180 / Real.pi) * Real.pi / 180) =
      Real.cos (Complex.arg ⟨dx, dy⟩) ∧
    Real.cos (normalizeDirection (90 - Complex.arg ⟨dx, dy⟩ * 180 / Real.pi) * Real.pi / 180) =
      Real.sin (Complex.arg ⟨dx, dy⟩) := by
  obtain ⟨m, hm⟩ := normalizeDirection_eq_add (90 - Complex.arg ⟨dx, dy⟩ * 180 / Real.pi)
  have hpi : Real.pi ≠ 0 := Real.pi_ne_zero
  have e : normalizeDirection (90 - Complex.arg ⟨dx, dy⟩ * 180 / Real.pi) * Real.pi / 180 =
      (Real.pi / 2 - Complex.arg ⟨dx, dy⟩) + (m : ℝ) * (2 * Real.pi) := by
    rw [hm]
    field_simp
    ring
  rw [e, Real.sin_add_int_mul_two_pi, Real.cos_add_int_mul_two_pi, Real.sin_pi_div_two_sub,
    Real.cos_pi_div_two_sub]
  exact ⟨rfl, rfl⟩

/-- C18: with `toRadian` the standard conversion, `math.Sincos` the real sine
and cosine, `math.Atan2(y, x)` the angle of `(x, y)` in `(-π, π]` and `math.Pi`
the number π: for a sprite at `(x, y)` and a target that `objectPos` resolves
to a different point `(tx, ty)`, `TurnTo` stores the heading
`normalizeDirection (90 - atan2(ty-y, tx-x)*180/π)`, and a following
`Step(sqrt((tx-x)^2 + (ty-y)^2))` places the sprite at `(tx, ty)`. -/
theorem TurnTo_then_Step_reaches (T : Trig ℝ) (M : MathAtan ℝ)
    (hrad : ∀ d, T.toRadian d = specToRadian Real.pi d)
    (hsc : ∀ r, T.Sincos r = (Real.sin r, Real.cos r))
    (hat : ∀ y x, M.Atan2 y x = Complex.arg ⟨x, y⟩) (hpi : M.Pi = Real.pi)
    (objectPos : Sprite ℝ → Object ℝ → ℝ × ℝ) (obj : Object ℝ) (s : St ℝ)
    (hne : objectPos s.sp obj ≠ (s.sp.x, s.sp.y)) :
    (TurnTo M objectPos (TurnTarget.object obj) s.sp).direction =
      normalizeDirection (90 - Complex.arg ⟨(objectPos s.sp obj).1 - s.sp.x,
        (objectPos s.sp obj).2 - s.sp.y⟩ * 180 / Real.pi) ∧
    (Step T (Real.sqrt (((objectPos s.sp obj).1 - s.sp.x) ^ 2 +
        ((objectPos s.sp obj).2 - s.sp.y) ^ 2))
      { s with sp := TurnTo M objectPos (TurnTarget.object obj) s.sp }).sp.x =
      (objectPos s.sp obj).1 ∧
    (Step T (Real.sqrt (((objectPos s.sp obj).1 - s.sp.x) ^ 2 +
        ((objectPos s.sp obj).2 - s.sp.y) ^ 2))
      { s with sp := TurnTo M objectPos (TurnTarget.object obj) s.sp }).sp.y =
      (objectPos s.sp obj).2 := by
  have hdir : (TurnTo M objectPos (TurnTarget.object obj) s.sp).direction =
      normalizeDirection (90 - Complex.arg ⟨(objectPos s.sp obj).1 - s.sp.x,
        (objectPos s.sp obj).2 - s.sp.y⟩ * 180 / Real.pi) := by
    rw [TurnTo_object_direction, hat, hpi]
  have hz : (⟨(objectPos s.sp obj).1 - s.sp.x, (objectPos s.sp obj).2 - s.sp.y⟩ : ℂ) ≠ 0 := by
    intro h
    apply hne
    have h1 := congrArg Complex.re h
    have h2 := congrArg Complex.im h
    simp only [Complex.zero_re, Complex.zero_im] at h1 h2
    exact Prod.ext (by simpa using sub_eq_zero.mp h1) (by simpa using sub_eq_zero.mp h2)
  have habs : Complex.abs ⟨(objectPos s.sp obj).1 - s.sp.x, (objectPos s.sp obj).2 - s.sp.y⟩ =
      Real.sqrt (((objectPos s.sp obj).1 - s.sp.x) ^ 2 +
        ((objectPos s.sp obj).2 - s.sp.y) ^ 2) := by
    rw [Complex.abs_apply, Complex.normSq_apply]
    congr 1
    ring
  have hpos : Complex.abs ⟨(objectPos s.sp obj).1 - s.sp.x,
      (objectPos s.sp obj).2 - s.sp.y⟩ ≠ 0 := by
    simpa using hz
  obtain ⟨hs, hc⟩ := sincos_of_turned_heading ((objectPos s.sp obj).1 - s.sp.x)
    ((objectPos s.sp obj).2 - s.sp.y)
  rw [Complex.cos_arg hz] at hs
  rw [Complex.sin_arg] at hc
  refine ⟨hdir, ?_, ?_⟩
  · simp only [Step, (doMoveTo_spec _ _ _).1, hrad, hsc, specToRadian, hdir, hs, ← habs]
    show s.sp.x + _ = _
    field_simp
  · simp only [Step, (doMoveTo_spec _ _ _).1, hrad, hsc, specToRadian, hdir, hc, ← habs]
    show s.sp.y + _ = _
    field_simp

/-- C18 on a sprite at the origin over `ℝ` and the mouse pointer resolved to
`(3, 4)`: after `TurnTo` and a step of `sqrt((3-0)^2 + (4-0)^2)` the sprite is
at `(3, 4)`. -/
theorem TurnTo_then_Step_reaches_witness :
    ((3 : ℝ), (4 : ℝ)) ≠ ((originSprite ℝ 0).x, (originSprite ℝ 0).y) ∧
    (Step ({ toRadian := specToRadian Real.pi,
             Sincos := fun r => (Real.sin r, Real.cos r) } : Trig ℝ)
        (Real.sqrt (((3 : ℝ) - (originSprite ℝ 0).x) ^ 2 + ((4 : ℝ) - (originSprite ℝ 0).y) ^ 2))
        { sp := TurnTo ({ Atan2 := fun y x => Complex.arg ⟨x, y⟩, Pi := Real.pi } : MathAtan ℝ)
                  (fun _ _ => (3, 4)) (TurnTarget.object (Object.special Mouse))
                  (originSprite ℝ 0),
          trace := [] }).sp.x = 3 ∧
    (Step ({ toRadian := specToRadian Real.pi,
             Sincos := fun r => (Real.sin r, Real.cos r) } : Trig ℝ)
        (Real.sqrt (((3 : ℝ) - (originSprite ℝ 0).x) ^ 2 + ((4 : ℝ) - (originSprite ℝ 0).y) ^ 2))
        { sp := TurnTo ({ Atan2 := fun y x => Complex.arg ⟨x, y⟩, Pi := Real.pi } : MathAtan ℝ)
                  (fun _ _ => (3, 4)) (TurnTarget.object (Object.special Mouse))
                  (originSprite ℝ 0),
          trace := [] }).sp.y = 4 :=
  have hne : ((3 : ℝ), (4 : ℝ)) ≠ ((originSprite ℝ 0).x, (originSprite ℝ 0).y) := by
    simp [originSprite]
  have h := TurnTo_then_Step_reaches
    ({ toRadian := specToRadian Real.pi, Sincos := fun r => (Real.sin r, Real.cos r) } : Trig ℝ)
    ({ Atan2 := fun y x => Complex.arg ⟨x, y⟩, Pi := Real.pi } : MathAtan ℝ)
    (fun _ => rfl) (fun _ => rfl) (fun _ _ => rfl) rfl (fun _ _ => (3, 4))
    (Object.special Mouse) { sp := originSprite ℝ 0, trace := [] } hne
  ⟨hne, h.2.1, h.2.2⟩

end Spx
